import Mathlib

/-!
# Verification of the alt-text generator's batch processing and deduplication pipeline

Shallow embedding of the core pipeline of the `alt-text-generator` repository:

* `csv_handler.py`   — row store (`CSVHandler`)
* `image_handler.py` — image download / size categorization (`ImageHandler.download_image`)
* `generate_alt_text.py` — CLI pipeline (`process_images`, `process_batch`,
  `extract_base_filename`, `is_valid_alt_text`, output tables, `main`)
* `processor.py`     — programmatic pipeline (`process_csv_file`,
  `extract_base_filename`, `is_valid_alt_text`, output tables)
* `alt_text_generator.py` — `BATCH_SIZE` and `estimate_cost`

Network and vision-model collaborators (`web_scraper.scrape_page`,
`AltTextGenerator.generate_batch`, HTTP image fetch, base64 encoding) are
modelled as oracle functions supplied by an `Env` record; the pipeline logic
itself is translated statement by statement from the Python source.
Machine floats used for byte sizes appear only in comparisons against exact
constants and are modelled as `Nat` / `ℚ` comparisons.
-/

/-! ## String utilities shared by both modules -/

/-- ASCII lowercasing of a string; models Python `str.lower()` on the ASCII
vocabulary used by the pipeline's pattern checks. -/
def lowerStr (s : String) : String := ⟨s.data.map Char.toLower⟩

/-- `substrAux needle hay = true` iff `needle` occurs as a contiguous
substring of `hay`; models Python's `needle in hay`. -/
def substrAux (needle : List Char) : List Char → Bool
  | [] => needle.isEmpty
  | c :: t => needle.isPrefixOf (c :: t) || substrAux needle t

/-- Python `needle in hay` on strings. -/
def substrOf (needle hay : String) : Bool := substrAux needle.data hay.data

/-- `url.split('/')[-1]`: the characters after the last `'/'` (the whole
string when there is none). -/
def afterLastSlash (l : List Char) : List Char :=
  ((l.reverse.span (fun c => c ≠ '/')).1).reverse

/-- `s.split('?')[0]`: the characters before the first `'?'`. -/
def beforeQuery (l : List Char) : List Char :=
  l.takeWhile (fun c => c ≠ '?')

/-- Python `url.split('/')[-1].split('?')[0]`: last path segment of a URL with
any query string removed. -/
def urlFilename (url : String) : String :=
  ⟨beforeQuery (afterLastSlash url.data)⟩

/-- A cell of the pandas row table: `none` models NaN/null, `some s` a string
value (possibly empty). Python `str(cell)` renders NaN as `"nan"`. -/
def strOfCell : Option String → String
  | some s => s
  | none => "nan"

/-! ## `processor.extract_base_filename`

```python
filename = url.split('/')[-1].split('?')[0]
filename = re.sub(r'-\d+x\d+(\.[a-zA-Z]+)$', r'\1', filename)
filename = re.sub(r'-scaled(\.[a-zA-Z]+)$', r'\1', filename)
```
-/

/-- Splits `l` as `stem ++ '.' :: ext` where `ext` is the nonempty all-ASCII-letter
run ending the string; this is the unique decomposition matched by the regex
tail `(\.[a-zA-Z]+)$` (the letters run contains no dot, so the dot is the last
dot of the string). -/
def extSplit (l : List Char) : Option (List Char × List Char) :=
  match (l.reverse.span Char.isAlpha) with
  | (alphas, '.' :: restRev) =>
    if alphas.isEmpty then none
    else some (restRev.reverse, '.' :: alphas.reverse)
  | _ => none

/-- `isDimPair s = true` iff `s` is `digits ++ 'x' :: digits` with both runs
nonempty — the body of a `-\d+x\d+` match. -/
def isDimPair (s : List Char) : Bool :=
  match s.span Char.isDigit with
  | (a, 'x' :: b) => !a.isEmpty && !b.isEmpty && b.all Char.isDigit
  | _ => false

/-- Splits `l` as `pre ++ '-' :: suf` at the last `'-'`. -/
def lastDashSplit (l : List Char) : Option (List Char × List Char) :=
  match (l.reverse.span (fun c => c ≠ '-')) with
  | (sufRev, '-' :: preRev) => some (preRev.reverse, sufRev.reverse)
  | _ => none

/-- `re.sub(r'-\d+x\d+(\.[a-zA-Z]+)$', r'\1', filename)`: the pattern is
anchored at the end, so at most one match exists; it strips a single
`-<digits>x<digits>` group standing immediately before the final
dot-letters extension. -/
def stripDimSuffix (filename : String) : String :=
  match extSplit filename.data with
  | none => filename
  | some (stem, ext) =>
    match lastDashSplit stem with
    | none => filename
    | some (pre, suf) => if isDimPair suf then ⟨pre ++ ext⟩ else filename

/-- `re.sub(r'-scaled(\.[a-zA-Z]+)$', r'\1', filename)`. -/
def stripScaledSuffix (filename : String) : String :=
  match extSplit filename.data with
  | none => filename
  | some (stem, ext) =>
    if "-scaled".data.isSuffixOf stem then
      ⟨stem.take (stem.length - 7) ++ ext⟩
    else filename

namespace Processor

/-- `processor.extract_base_filename`. -/
def extract_base_filename (url : String) : String :=
  stripScaledSuffix (stripDimSuffix (urlFilename url))

end Processor

/-! ## `generate_alt_text.extract_base_filename`

```python
filename = url.split('/')[-1].split('?')[0]
base_filename = re.sub(r'(-\d+x\d+)+', '', filename)
```

The global substitution deletes every `-<digits>x<digits>` group, scanning
left to right (deleting each single group is equivalent to deleting maximal
runs of consecutive groups, since the replacement is empty). -/

/-- Tries to consume one `-\d+x\d+` group (with greedy digit runs) from the
front of `l`, returning the remainder. -/
def parseDimGroup : List Char → Option (List Char)
  | '-' :: rest =>
    match rest.span Char.isDigit with
    | (a, 'x' :: r2) =>
      if a.isEmpty then none
      else
        match r2.span Char.isDigit with
        | (b, r3) => if b.isEmpty then none else some r3
    | _ => none
  | _ => none

/-- Fuelled scan deleting every `-\d+x\d+` group; each successful parse
consumes at least four characters, so fuel `l.length` never runs out. -/
def removeDimsF : Nat → List Char → List Char
  | 0, l => l
  | _ + 1, [] => []
  | fuel + 1, c :: rest =>
    if c = '-' then
      match parseDimGroup (c :: rest) with
      | some r => removeDimsF fuel r
      | none => c :: removeDimsF fuel rest
    else c :: removeDimsF fuel rest

/-- `re.sub(r'(-\d+x\d+)+', '', filename)`. -/
def removeDims (l : List Char) : List Char := removeDimsF l.length l

namespace GenAlt

/-- `generate_alt_text.extract_base_filename`. -/
def extract_base_filename (url : String) : String :=
  ⟨removeDims (urlFilename url).data⟩

end GenAlt

/-! ## `is_valid_alt_text`, both versions -/

/-- Python truthiness of an optional-string cell (`if result.get('error'):` …):
present and nonempty. -/
def optTruthy : Option String → Bool
  | some s => s ≠ ""
  | none => false

namespace GenAlt

/-- `generate_alt_text.is_valid_alt_text`: excluded patterns are
`['skip', 'too small']`. -/
def exclude_patterns : List String := ["skip", "too small"]

/-- `generate_alt_text.is_valid_alt_text` on a row cell (`none` = NaN). -/
def is_valid_alt_text (alt : Option String) : Bool :=
  match alt with
  | none => false
  | some a =>
    if a = "" then false
    else !(exclude_patterns.any (fun p => substrOf p (lowerStr a)))

end GenAlt

namespace Processor

/-- `processor.is_valid_alt_text`: excluded patterns are
`['skip', 'too small', 'download error', 'error:', 'icon', 'thumbnail', 'avatar']`. -/
def exclude_patterns : List String :=
  ["skip", "too small", "download error", "error:", "icon", "thumbnail", "avatar"]

/-- `processor.is_valid_alt_text` on a row cell (`none` = NaN). -/
def is_valid_alt_text (alt : Option String) : Bool :=
  match alt with
  | none => false
  | some a =>
    if a = "" then false
    else !(exclude_patterns.any (fun p => substrOf p (lowerStr a)))

end Processor

/-! ## Row store (`csv_handler.py`)

A `Row` is one record of the loaded table after `CSVHandler.load()` has added
the output columns. `none` in an `Option String` field models a NaN cell,
`some ""` an empty-string cell. `declaredSize` is the declared byte size read
from the first present column among
`['Size (Bytes)', 'Size (bytes)', 'Size', 'File Size', 'size']`, resolved to
`none` when the column is absent, the cell is NaN, or `float(...)` fails. -/

structure Row where
  source : String
  dest : String
  titleTag : Option String
  h1Tag : Option String
  adjacentText : Option String
  message : String
  altText : Option String
  declaredSize : Option Nat
deriving DecidableEq, Repr, Inhabited

/-- `df['ALT text'].isna() | (df['ALT text'] == '')`. -/
def altIsEmpty (a : Option String) : Bool :=
  a == none || a == some ""

/-- In-place update of the row at positional index `idx`
(`CSVHandler.update_row` mutates `df.at[index, col]`; out-of-range indices do
not occur in the pipeline). -/
def updateAt (f : Row → Row) : Nat → List Row → List Row
  | _, [] => []
  | 0, r :: rs => f r :: rs
  | n + 1, r :: rs => r :: updateAt f n rs

namespace CSVHandler

/-- `CSVHandler.get_rows_to_process`: the rows whose `ALT text` is null or
empty, with their stable indices. -/
def get_rows_to_process (store : List Row) : List (Nat × Row) :=
  store.enum.filter (fun p => altIsEmpty p.2.altText)

/-- Fuelled helper for `uniqueFirst`, structurally recursive so that model
runs reduce inside the kernel; each step consumes at least one element, so
fuel `l.length` never runs out. -/
def uniqueFirstF : Nat → List String → List String
  | 0, _ => []
  | _ + 1, [] => []
  | fuel + 1, a :: l => a :: uniqueFirstF fuel (l.filter (fun b => b ≠ a))

/-- First-occurrence-preserving deduplication; models
`pandas.Series.unique()`, which keeps values in order of first appearance. -/
def uniqueFirst (l : List String) : List String := uniqueFirstF l.length l

/-- `CSVHandler.get_unique_pages`: distinct `Source` values of the rows still
to process, in order of first occurrence. -/
def get_unique_pages (store : List Row) : List String :=
  uniqueFirst ((get_rows_to_process store).map (fun p => p.2.source))

/-- `CSVHandler.get_images_for_page`: all rows (indices kept) whose `Source`
equals `page_url`, regardless of processing state. -/
def get_images_for_page (store : List Row) (pageUrl : String) : List (Nat × Row) :=
  store.enum.filter (fun p => p.2.source == pageUrl)

end CSVHandler

/-! ## Image download (`image_handler.py`) -/

/-- `ImageSizeCategory`. -/
inductive SizeCategory
  | normal
  | large
  | tooLarge
deriving DecidableEq, Repr, Inhabited

/-- Outcome of the HTTP fetch inside `ImageHandler.download_image`: an
exception (timeout / request error / decode error), or a successful response
whose body has `bytes` bytes and decodes to a `w × h` image. -/
inductive FetchResult
  | err
  | ok (bytes w h : Nat)
deriving DecidableEq, Repr

/-- 5 MB file-size ceiling (`MAX_FILE_SIZE_BYTES = 5 * 1024 * 1024`;
`file_size_mb > 5.0` on exact byte counts is `bytes > 5242880`). -/
def MAX_FILE_SIZE_BYTES : Nat := 5 * 1024 * 1024

/-- `ImageHandler.download_image` over a fetch oracle: returns
`(local_path, size_category, dimensions)` exactly as the Python tuple, with
the saved temp-file path surrogate being the URL itself. -/
def download_image (fr : FetchResult) (url : String) :
    Option String × Option SizeCategory × Option (Nat × Nat) :=
  match fr with
  | .err => (none, none, none)
  | .ok bytes w h =>
    if bytes > MAX_FILE_SIZE_BYTES then (none, some .tooLarge, some (0, 0))
    else if max w h > 8000 then (none, some .tooLarge, some (w, h))
    else if max w h > 2000 then (some url, some .large, some (w, h))
    else (some url, some .normal, some (w, h))

/-! ## Scraping collaborator interface (`web_scraper.py`) -/

/-- Per-image scrape context (`result['images'][url]`). -/
structure ImgCtx where
  adjacentText : String
  imgError : Option String
deriving DecidableEq, Repr, Inhabited

/-- Page scrape context (`result['page_data']` plus `result['images']`). -/
structure PageCtx where
  title : String
  h1 : String
  pageError : Option String
  images : List (String × ImgCtx)
deriving DecidableEq, Repr, Inhabited

/-- Outcome of `scraper.scrape_page`: a `ForbiddenError`, a returned result
dictionary (possibly carrying a soft error), or another raised exception. -/
inductive ScrapeOutcome
  | forbidden (msg : String)
  | ok (ctx : PageCtx)
  | exc (msg : String)
deriving Repr

/-- `AltTextGenerator.BATCH_SIZE`. -/
def BATCH_SIZE : Nat := 8

/-! ## CLI pipeline (`generate_alt_text.py`) -/

namespace GenAlt

/-- One entry of the `batch` list built in `process_images` (the
`image_base64` payload and `media_type` are opaque strings supplied by the
encoding oracle). -/
structure BatchItem where
  imageBase64 : String
  mediaType : String
  title : String
  h1 : String
  adjacentText : String
  imageUrl : String
  index : Nat
  sizeCategory : SizeCategory
deriving DecidableEq, Repr, Inhabited

/-- One element of the list returned by `AltTextGenerator.generate_batch`. -/
structure GenResult where
  imageUrl : String
  altText : Option String
  error : Option String
deriving DecidableEq, Repr

/-- `generate_batch` either raises (transport failure after internal retries)
or returns one result per image. -/
inductive GenOutcome
  | raise (msg : String)
  | results (rs : List GenResult)
deriving Repr

/-- Oracles for every collaborator `process_images` touches. -/
structure Env where
  scrape : String → List String → ScrapeOutcome
  fetch : String → FetchResult
  encode : String → Option String
  mediaTypeOf : String → String
  gen : List BatchItem → GenOutcome

/-- Counters of `ProgressTracker` (`processed`, `skipped`, `failed`,
`last_index`). -/
structure Progress where
  processed : Nat
  skipped : Nat
  failed : Nat
  lastIndex : Option Nat
deriving DecidableEq, Repr

def Progress.addProcessed (p : Progress) (idx : Nat) : Progress :=
  { p with processed := p.processed + 1, lastIndex := some idx }

def Progress.addSkipped (p : Progress) (idx : Nat) : Progress :=
  { p with skipped := p.skipped + 1, lastIndex := some idx }

def Progress.addFailed (p : Progress) (idx : Nat) : Progress :=
  { p with failed := p.failed + 1, lastIndex := some idx }

/-- An entry of `pending_variants`. -/
structure PendingVariant where
  idx : Nat
  imageUrl : String
  base : String
deriving DecidableEq, Repr

/-- The mutable state of the `process_images` batch loop. The two caches and
the in-batch map are Python dicts, modelled as association lists where the
most recent assignment is consed on front (so `List.lookup` returns the
latest value). `genLog` records every payload passed to
`alt_generator.generate_batch`; `downloadLog` every URL passed to
`image_handler.download_image`. -/
structure PState where
  store : List Row
  processedImages : List (String × Option String)
  processedBase : List (String × Option String)
  batch : List BatchItem
  batchIndices : List Nat
  batchBase : List (String × String)
  pending : List PendingVariant
  progress : Progress
  genLog : List (List BatchItem)
  downloadLog : List String
deriving Repr

/-- `csv_handler.update_row(idx, **{'ALT text': alt})`. -/
def setAlt (store : List Row) (idx : Nat) (alt : String) : List Row :=
  updateAt (fun r => { r with altText := some alt }) idx store

/-- `csv_handler.update_row(idx, message=msg)` — note: writes the `message`
column, not `ALT text`. -/
def setMsg (store : List Row) (idx : Nat) (msg : String) : List Row :=
  updateAt (fun r => { r with message := msg }) idx store

/-- Handling of one element of the list returned by `generate_batch` inside
`process_batch`: find the batch entry with the same `image_url` (first match)
and write the outcome through to the row store and the two caches. -/
def applyGenResult (batch : List BatchItem) (indices : List Nat) (st : PState)
    (r : GenResult) : PState :=
  match (batch.zip indices).find? (fun p => p.1.imageUrl == r.imageUrl) with
  | none => st
  | some (item, idx) =>
    if optTruthy r.error then
      { st with
        store := setMsg st.store idx ("API error: " ++ r.error.getD "")
        progress := st.progress.addFailed idx
        processedImages := (r.imageUrl, none) :: st.processedImages }
    else if optTruthy r.altText then
      let alt := r.altText.getD ""
      { st with
        store := updateAt (fun row =>
          { row with altText := some alt, titleTag := some item.title,
                     h1Tag := some item.h1,
                     adjacentText := some item.adjacentText }) idx st.store
        progress := st.progress.addProcessed idx
        processedImages := (r.imageUrl, some alt) :: st.processedImages
        processedBase :=
          (extract_base_filename r.imageUrl, some alt) :: st.processedBase }
    else
      { st with
        store := setMsg st.store idx "Failed to generate alt text"
        progress := st.progress.addFailed idx
        processedImages := (r.imageUrl, none) :: st.processedImages }

/-- The `except Exception` branch of `process_batch`: every row of the batch
is marked failed, and `processed_images` records a failure for each batch
entry (`if i < len(batch)`). -/
def markBatchFailed (batch : List BatchItem) (indices : List Nat) (msg : String)
    (st : PState) : PState :=
  indices.enum.foldl (fun st p =>
    let st := { st with
      store := setMsg st.store p.2 ("Batch processing error: " ++ msg)
      progress := st.progress.addFailed p.2 }
    match batch.get? p.1 with
    | some item => { st with processedImages := (item.imageUrl, none) :: st.processedImages }
    | none => st) st

/-- `generate_alt_text.process_batch`: one call to the vision collaborator and
the fan-out of its results. -/
def process_batch (env : Env) (batch : List BatchItem) (indices : List Nat)
    (st : PState) : PState :=
  let st := { st with genLog := st.genLog ++ [batch] }
  match env.gen batch with
  | .results rs => rs.foldl (applyGenResult batch indices) st
  | .raise msg => markBatchFailed batch indices msg st

/-- Resolution of one pending variant after a batch completes: copy the
canonical result if (and only if) the base filename is now cached. -/
def resolvePendingOne (st : PState) (v : PendingVariant) : PState :=
  match st.processedBase.lookup v.base with
  | none => st
  | some (some alt) =>
    { st with
      store := setAlt st.store v.idx alt
      progress := st.progress.addProcessed v.idx
      processedImages := (v.imageUrl, some alt) :: st.processedImages }
  | some none =>
    { st with
      store := setMsg st.store v.idx "Variant of failed image"
      progress := st.progress.addFailed v.idx
      processedImages := (v.imageUrl, none) :: st.processedImages }

/-- Batch flush: call `process_batch`, resolve the pending variants, clear the
batch tracking (`batch = []`, `batch_indices = []`, `batch_base_filenames = {}`,
`pending_variants = []`); the subsequent `csv_handler.save()` persists `store`
as is. -/
def flushBatch (env : Env) (st : PState) : PState :=
  let st1 := process_batch env st.batch st.batchIndices st
  let st2 := st1.pending.foldl resolvePendingOne st1
  { st2 with batch := [], batchIndices := [], batchBase := [], pending := [] }

/-- Page context looked up for the current row:
`page_data.get(source_url, {})` with `.get('page_data', {})` /
`.get('images', {}).get(image_url, {})` defaulting to empty dicts. -/
def pageInfoOf (pageData : List (String × PageCtx)) (sourceUrl : String) :
    String × String × Option String :=
  match pageData.lookup sourceUrl with
  | some ctx => (ctx.title, ctx.h1, ctx.pageError)
  | none => ("", "", none)

def imageInfoOf (pageData : List (String × PageCtx)) (sourceUrl imageUrl : String) :
    String × Option String :=
  match pageData.lookup sourceUrl with
  | some ctx =>
    match ctx.images.lookup imageUrl with
    | some ic => (ic.adjacentText, ic.imgError)
    | none => ("", none)
  | none => ("", none)

/-- Steps 4–11 of the per-row logic of `process_images` (declared size check,
scrape-error check, download, dimension checks, disk-size recheck, encoding,
batch admission, flush). Reached when neither cache nor the open batch knows
the image. -/
def admitRow (env : Env) (pageData : List (String × PageCtx)) (st : PState)
    (idx : Nat) (row : Row) (base : String) : PState :=
  let imageUrl := row.dest
  -- Check file size from CSV (if a size column exists and parses)
  if (match row.declaredSize with
      | some s => decide (s > MAX_FILE_SIZE_BYTES)
      | none => false) then
    { st with
      store := setMsg st.store idx "Image too large: declared size exceeds 5MB limit"
      progress := st.progress.addSkipped idx
      processedImages := (imageUrl, none) :: st.processedImages }
  else
    let pi := pageInfoOf pageData row.source
    let ii := imageInfoOf pageData row.source imageUrl
    -- Check for scraping errors
    if optTruthy pi.2.2 || optTruthy ii.2 then
      let errMsg := if optTruthy pi.2.2 then pi.2.2.getD "" else ii.2.getD ""
      { st with
        store := setMsg st.store idx ("Scraping failed: " ++ errMsg)
        progress := st.progress.addFailed idx
        processedImages := (imageUrl, none) :: st.processedImages }
    else
      -- Download and check image
      let st := { st with downloadLog := st.downloadLog ++ [imageUrl] }
      match download_image (env.fetch imageUrl) imageUrl with
      | (localPath, sizeCategory, dimensions) =>
        if sizeCategory = some .tooLarge then
          let msg := if dimensions = some (0, 0) then
              "Image too large: exceeds 5MB file size limit"
            else "Image too large: exceeds 8000x8000 pixel limit"
          { st with
            store := setMsg st.store idx msg
            progress := st.progress.addSkipped idx
            processedImages := (imageUrl, none) :: st.processedImages }
        else if localPath = none then
          { st with
            store := setMsg st.store idx "Failed to download image"
            progress := st.progress.addFailed idx
            processedImages := (imageUrl, none) :: st.processedImages }
        else
          -- Final safety check on the just-written temp file: its size equals
          -- the fetched byte count, which the first check bounded by 5MB, so
          -- the branch mirrors the Python recheck and cannot fire here.
          let bytesOnDisk := match env.fetch imageUrl with
            | .ok bytes _ _ => bytes
            | .err => 0
          if bytesOnDisk > MAX_FILE_SIZE_BYTES then
            { st with
              store := setMsg st.store idx "Image too large: on-disk size exceeds 5MB limit"
              progress := st.progress.addSkipped idx
              processedImages := (imageUrl, none) :: st.processedImages }
          else
            match env.encode imageUrl with
            | none =>
              { st with
                store := setMsg st.store idx "Failed to process image file"
                progress := st.progress.addFailed idx
                processedImages := (imageUrl, none) :: st.processedImages }
            | some imageBase64 =>
              -- Update CSV with adjacent text immediately, then batch
              let adjacentText := ii.1
              let st := { st with
                store := updateAt (fun r => { r with adjacentText := some adjacentText })
                  idx st.store }
              let cat := sizeCategory.getD .normal
              let item : BatchItem :=
                { imageBase64 := imageBase64
                  mediaType := env.mediaTypeOf imageUrl
                  title := pi.1
                  h1 := pi.2.1
                  adjacentText := adjacentText
                  imageUrl := imageUrl
                  index := idx
                  sizeCategory := cat }
              let st := { st with
                batch := st.batch ++ [item]
                batchIndices := st.batchIndices ++ [idx]
                batchBase := (base, imageUrl) :: st.batchBase }
              if st.batch.length ≥ BATCH_SIZE ∨ cat = .large then
                flushBatch env st
              else st

/-- One iteration of `for idx, row in rows_to_process.iterrows()` in
`process_images`. `row` is the snapshot taken when `rows_to_process` was
computed (a pandas copy); only `Source`, `Destination` and the size column are
read from it. -/
def processRow (env : Env) (pageData : List (String × PageCtx)) (st : PState)
    (p : Nat × Row) : PState :=
  let idx := p.1
  let row := p.2
  let imageUrl := row.dest
  -- Check if this exact image URL has already been processed (duplicate)
  match st.processedImages.lookup imageUrl with
  | some (some alt) =>
    { st with
      store := setAlt st.store idx alt
      progress := st.progress.addProcessed idx }
  | some none =>
    { st with
      store := setMsg st.store idx "Duplicate of failed image"
      progress := st.progress.addFailed idx }
  | none =>
    -- Check if this is a resized version of an already-processed image
    let base := extract_base_filename imageUrl
    match st.processedBase.lookup base with
    | some (some alt) =>
      { st with
        store := setAlt st.store idx alt
        progress := st.progress.addProcessed idx
        processedImages := (imageUrl, some alt) :: st.processedImages }
    | some none =>
      { st with
        store := setMsg st.store idx "Variant of failed image"
        progress := st.progress.addFailed idx
        processedImages := (imageUrl, none) :: st.processedImages }
    | none =>
      -- Check if this is a variant of an image already in the current batch
      if (st.batchBase.lookup base).isSome then
        { st with pending := st.pending ++ [⟨idx, imageUrl, base⟩] }
      else
        admitRow env pageData st idx row base

/-- Initial state of the batch loop over a given (post-scrape) store. -/
def initState (store : List Row) : PState :=
  { store := store
    processedImages := []
    processedBase := []
    batch := []
    batchIndices := []
    batchBase := []
    pending := []
    progress := { processed := 0, skipped := 0, failed := 0, lastIndex := none }
    genLog := []
    downloadLog := [] }

/-- The batch phase of `process_images`: the row loop followed by the final
`if batch:` flush (pending variants can only be nonempty when the batch is). -/
def batchPhase (env : Env) (pageData : List (String × PageCtx))
    (rowsToProcess : List (Nat × Row)) (st0 : PState) : PState :=
  let st := rowsToProcess.foldl (processRow env pageData) st0
  if st.batch.isEmpty then st else flushBatch env st

end GenAlt

namespace GenAlt

/-- State of the page-scraping loop at the top of `process_images`.
`stopped` carries the message of a raised `ForbiddenError` (which
`process_images` re-raises, so no further page and no image is processed). -/
structure ScrapeState where
  store : List Row
  pageData : List (String × PageCtx)
  scrapeLog : List (String × List String)
  stopped : Option String
deriving Repr

/-- One iteration of `for page_num, page_url in enumerate(unique_pages, 1)`.

A page is "already scraped" when the `title tag` cell of its first row is not
NaN (`pd.notna` is true for the empty string too); then title, H1 and the
per-image adjacent text are reused from the store and no scrape call is made.
Otherwise `scraper.scrape_page` is invoked; on a returned result the page's
title/H1 are written to every row of the page and the store is saved; on
`ForbiddenError` the loop is aborted; on any other exception an error context
is recorded for the page with no store writes. -/
def scrapePage (env : Env) (ss : ScrapeState) (pageUrl : String) : ScrapeState :=
  if ss.stopped.isSome then ss
  else
    let pageRows := CSVHandler.get_images_for_page ss.store pageUrl
    let imageUrls := pageRows.map (fun p => p.2.dest)
    let indices := pageRows.map (fun p => p.1)
    match pageRows.head? with
    | none => ss  -- unreachable for pages produced by get_unique_pages
    | some (_, firstRow) =>
      if firstRow.titleTag.isSome then
        -- Use existing data from CSV (str() renders a NaN H1 cell as "nan")
        let ctx : PageCtx :=
          { title := strOfCell firstRow.titleTag
            h1 := strOfCell firstRow.h1Tag
            pageError := none
            images := (pageRows.map (fun p =>
              (p.2.dest,
               ({ adjacentText := strOfCell p.2.adjacentText,
                  imgError := none } : ImgCtx)))).reverse }
        { ss with pageData := (pageUrl, ctx) :: ss.pageData }
      else
        let ss := { ss with scrapeLog := ss.scrapeLog ++ [(pageUrl, imageUrls)] }
        match env.scrape pageUrl imageUrls with
        | .forbidden msg => { ss with stopped := some msg }
        | .ok result =>
          -- Update CSV with page-level data immediately, then save
          { ss with
            pageData := (pageUrl, result) :: ss.pageData
            store := indices.foldl (fun s i =>
              updateAt (fun r =>
                { r with titleTag := some result.title,
                         h1Tag := some result.h1 }) i s) ss.store }
        | .exc msg =>
          { ss with
            pageData := (pageUrl,
              ({ title := "", h1 := "", pageError := some msg,
                 images := imageUrls.map (fun u =>
                   (u, ({ adjacentText := "", imgError := some msg } : ImgCtx))) }
                : PageCtx)) :: ss.pageData }

/-- The scraping phase of `process_images` over the unique pages of the
store's unprocessed rows. -/
def scrapePhase (env : Env) (store : List Row) : ScrapeState :=
  (CSVHandler.get_unique_pages store).foldl (scrapePage env)
    { store := store, pageData := [], scrapeLog := [], stopped := none }

/-- Result of a full `process_images` run. -/
structure RunResult where
  store : List Row
  scrapeLog : List (String × List String)
  downloadLog : List String
  genLog : List (List BatchItem)
  progress : Progress
  stopped : Option String
deriving Repr

/-- `generate_alt_text.process_images`: scraping phase, then the batch loop
over the `rows_to_process` snapshot (computed by `main` before the call). A
`ForbiddenError` during scraping propagates, so the batch loop never runs. -/
def process_images (env : Env) (store0 : List Row)
    (rowsToProcess : List (Nat × Row)) : RunResult :=
  let ss := scrapePhase env store0
  match ss.stopped with
  | some msg =>
    { store := ss.store, scrapeLog := ss.scrapeLog, downloadLog := [],
      genLog := [],
      progress := { processed := 0, skipped := 0, failed := 0, lastIndex := none },
      stopped := some msg }
  | none =>
    let st := batchPhase env ss.pageData rowsToProcess (initState ss.store)
    { store := st.store, scrapeLog := ss.scrapeLog, downloadLog := st.downloadLog,
      genLog := st.genLog, progress := st.progress, stopped := none }

/-- A run as `main` invokes it: the row snapshot is
`csv_handler.get_rows_to_process()`. -/
def run (env : Env) (store0 : List Row) : RunResult :=
  process_images env store0 (CSVHandler.get_rows_to_process store0)

end GenAlt

/-! ## Cost model (`alt_text_generator.AltTextGenerator.estimate_cost`) -/

/-- `estimate_cost(num_images, avg_image_size_kb=500)` with exact rational
arithmetic in place of floats:
`tokens_per_image = 500/0.75 + 200`, 50 output tokens per image,
input at $3 and output at $15 per million tokens. -/
def estimate_cost (numImages : Nat) : ℚ :=
  let avgImageSizeKb : ℚ := 500
  let tokensPerImage : ℚ := avgImageSizeKb / (3 / 4) + 200
  let outputTokensPerImage : ℚ := 50
  let totalInputTokens : ℚ := numImages * tokensPerImage
  let totalOutputTokens : ℚ := numImages * outputTokensPerImage
  (totalInputTokens / 1000000) * 3 + (totalOutputTokens / 1000000) * 15

namespace GenAlt

/-- Result of the modelled `main`. -/
structure MainResult where
  store : List Row
  scrapeLog : List (String × List String)
  downloadLog : List String
  genLog : List (List BatchItem)
  exitCode : Nat
deriving Repr

/-- `generate_alt_text.main` from CSV load to the end of processing, with the
two interactive prompts (restart confirmation, proceed y/n) modelled as
answered affirmatively. Restart clears every `ALT text` cell to `''` when any
is set; then the cost gate `args.max_cost and estimated_cost > args.max_cost`
(Python truthiness: a `None` or `0.0` ceiling disables the check) exits with
code 1 before `process_images` is called. -/
def mainModel (env : Env) (store0 : List Row) (maxCost : Option ℚ)
    (restart : Bool) : MainResult :=
  let store1 :=
    if restart ∧ store0.any (fun r => optTruthy r.altText) then
      store0.map (fun r => { r with altText := some "" })
    else store0
  let rowsToProcess := CSVHandler.get_rows_to_process store1
  if rowsToProcess.length = 0 then
    { store := store1, scrapeLog := [], downloadLog := [], genLog := [], exitCode := 0 }
  else
    let estimatedCost := estimate_cost rowsToProcess.length
    let costExceeded := match maxCost with
      | some c => decide (c ≠ 0) && decide (estimatedCost > c)
      | none => false
    if costExceeded then
      { store := store1, scrapeLog := [], downloadLog := [], genLog := [], exitCode := 1 }
    else
      let res := process_images env store1 rowsToProcess
      { store := res.store, scrapeLog := res.scrapeLog,
        downloadLog := res.downloadLog, genLog := res.genLog,
        exitCode := if res.stopped.isSome then 1 else 0 }

end GenAlt

/-! ## Programmatic pipeline (`processor.py`) -/

namespace Processor

/-- One entry of the `batch` list built in `process_csv_file`
(`local_path` is the URL surrogate; `image_base64` is `None` when
`get_image_base64` failed, which the Python code does not check). -/
structure BatchItem where
  imageUrl : String
  baseFilename : String
  localPath : String
  imageBase64 : Option String
  mediaType : String
  title : String
  h1 : String
  adjacentText : String
deriving DecidableEq, Repr

/-- One element of the list returned by `generate_batch`; `process_csv_file`
reads `result.get('alt_text', '')` and `result.get('error')` and matches
results to batch entries by position. -/
structure GenResult where
  altText : Option String
  error : Option String
deriving DecidableEq, Repr

inductive GenOutcome
  | raise (msg : String)
  | results (rs : List GenResult)
deriving Repr

/-- Oracles for the collaborators of `process_csv_file`. The scrape oracle
takes only the page URL: the Python code passes `get_images_for_page`'s
DataFrame where `scrape_page` expects a URL list, so the returned `images`
dict is keyed by whatever iterating that argument yields; lookups by image
URL against it are modelled through the returned `PageCtx.images`. -/
structure Env where
  scrape : String → ScrapeOutcome
  fetch : String → FetchResult
  encode : String → Option String
  mediaTypeOf : String → String
  gen : List BatchItem → GenOutcome

/-- Counters of `ProcessingResults`. -/
structure Results where
  totalProcessed : Nat
  totalSkipped : Nat
  totalFailed : Nat
deriving DecidableEq, Repr

/-- Mutable state of the `process_csv_file` row loop. `processed_images` is a
single dict holding both exact URLs and base filenames, written only on
success. -/
structure PState where
  store : List Row
  processedImages : List (String × String)
  batch : List BatchItem
  batchRows : List Nat
  results : Results
  scrapeLog : List String
  genLog : List (List BatchItem)
  downloadLog : List String
  aborted : Option String
deriving Repr

/-- `csv_handler.update_row(idx, **{'ALT text': v})` — `processor.py` writes
every outcome, success or failure, into the `ALT text` column. -/
def setAlt (store : List Row) (idx : Nat) (alt : String) : List Row :=
  updateAt (fun r => { r with altText := some alt }) idx store

/-- Application of the `i`-th result to the `i`-th batch entry inside the
flush (`for i, result in enumerate(alt_text_results)`). -/
def applyGenResult (batch : List BatchItem) (batchRows : List Nat) (st : PState)
    (p : Nat × GenResult) : PState :=
  let i := p.1
  let r := p.2
  match batch.get? i, batchRows.get? i with
  | some item, some rowIdx =>
    if optTruthy r.error then
      { st with
        store := setAlt st.store rowIdx ("Error: " ++ r.error.getD "")
        results := { st.results with totalFailed := st.results.totalFailed + 1 } }
    else
      let alt := r.altText.getD ""
      { st with
        store := setAlt st.store rowIdx alt
        processedImages :=
          (item.baseFilename, alt) :: (item.imageUrl, alt) :: st.processedImages
        results := { st.results with totalProcessed := st.results.totalProcessed + 1 } }
  | _, _ => st

/-- The `except Exception` branch around a flush: every batch row is marked
`API error: ...` and counted failed. -/
def markBatchFailed (batchRows : List Nat) (msg : String) (st : PState) : PState :=
  batchRows.foldl (fun st rowIdx =>
    { st with
      store := setAlt st.store rowIdx ("API error: " ++ msg)
      results := { st.results with totalFailed := st.results.totalFailed + 1 } }) st

/-- One flush of the accumulated batch. Results are matched by position; if
`generate_batch` raises, every batch row gets the error. If it returns more
results than batch entries, the Python loop raises `IndexError` after having
applied the first `len(batch)` results (row writes and cache writes persist),
and the `except` branch then overwrites every batch row with
`API error: list index out of range`. -/
def flushBatch (env : Env) (st : PState) : PState :=
  let batch := st.batch
  let batchRows := st.batchRows
  let st := { st with genLog := st.genLog ++ [batch] }
  let st :=
    match env.gen batch with
    | .raise msg => markBatchFailed batchRows msg st
    | .results rs =>
      if rs.length ≤ batch.length then
        rs.enum.foldl (applyGenResult batch batchRows) st
      else
        let st := (rs.take batch.length).enum.foldl (applyGenResult batch batchRows) st
        markBatchFailed batchRows "list index out of range" st
  { st with batch := [], batchRows := [] }

/-- One iteration of `for idx in rows_to_process.index` in
`process_csv_file`. The row is read live from the store (`df.loc[idx]`), so
titles written by the scraping loop are visible. -/
def processRow (env : Env) (st : PState) (idx : Nat) : PState :=
  let row := st.store.getD idx default
  let imageUrl := row.dest
  let baseFilename := extract_base_filename imageUrl
  -- Check if already processed (exact URL)
  match st.processedImages.lookup imageUrl with
  | some alt =>
    { st with
      store := setAlt st.store idx alt
      results := { st.results with totalSkipped := st.results.totalSkipped + 1 } }
  | none =>
    -- Check if base filename was already processed (variant)
    match st.processedImages.lookup baseFilename with
    | some alt =>
      { st with
        store := setAlt st.store idx alt
        processedImages := (imageUrl, alt) :: st.processedImages
        results := { st.results with totalSkipped := st.results.totalSkipped + 1 } }
    | none =>
      -- Skip SVG files (icons)
      if ".svg".data.isSuffixOf (lowerStr imageUrl).data then
        { st with
          store := setAlt st.store idx "Skipped: SVG icon"
          results := { st.results with totalSkipped := st.results.totalSkipped + 1 } }
      -- Skip googleusercontent images (avatars)
      else if substrOf "googleusercontent" (lowerStr imageUrl) then
        { st with
          store := setAlt st.store idx "Skipped: Avatar (googleusercontent)"
          results := { st.results with totalSkipped := st.results.totalSkipped + 1 } }
      else
        -- Download and validate image
        let st := { st with downloadLog := st.downloadLog ++ [imageUrl] }
        match download_image (env.fetch imageUrl) imageUrl with
        | (localPath, sizeCategory, dimensions) =>
          if sizeCategory = some .tooLarge then
            let dims := dimensions.getD (0, 0)
            { st with
              store := setAlt st.store idx
                ("Image too large (" ++ toString dims.1 ++ "x" ++ toString dims.2
                  ++ " pixels)")
              results := { st.results with totalSkipped := st.results.totalSkipped + 1 } }
          else
            match localPath, dimensions with
            | some path, some (width, height) =>
              -- Skip small images (likely icons)
              if width < 100 ∨ height < 100 then
                { st with
                  store := setAlt st.store idx
                    ("Skipped: Icon/thumbnail (" ++ toString width ++ "x"
                      ++ toString height ++ "px, minimum 100x100)")
                  results := { st.results with totalSkipped := st.results.totalSkipped + 1 } }
              else
                let item : BatchItem :=
                  { imageUrl := imageUrl
                    baseFilename := baseFilename
                    localPath := path
                    imageBase64 := env.encode imageUrl
                    mediaType := env.mediaTypeOf imageUrl
                    title := strOfCell row.titleTag
                    h1 := strOfCell row.h1Tag
                    adjacentText := strOfCell row.adjacentText }
                let st := { st with
                  batch := st.batch ++ [item]
                  batchRows := st.batchRows ++ [idx] }
                -- Process batch when full (or for large images)
                let batchSize := if sizeCategory = some .large then 1 else 8
                if st.batch.length ≥ batchSize then flushBatch env st else st
            | _, _ =>
              -- `width, height = dimensions` unpacking of None raises
              -- TypeError, caught by `except Exception` as a download error
              { st with
                store := setAlt st.store idx
                  "Download error: cannot unpack non-iterable NoneType object"
                results := { st.results with totalFailed := st.results.totalFailed + 1 } }

/-- The scraping loop of `process_csv_file`: every unique page of the
unprocessed rows is scraped unconditionally; on a returned result the title,
H1 and adjacent text are written to every row of the page and the store is
saved; a `ForbiddenError` aborts the whole run; any other exception only
emits a status message and continues. -/
def scrapePage (env : Env) (ss : PState) (pageUrl : String) : PState :=
  if ss.aborted.isSome then ss
  else
    let ss := { ss with scrapeLog := ss.scrapeLog ++ [pageUrl] }
    match env.scrape pageUrl with
    | .forbidden msg => { ss with aborted := some msg }
    | .ok pageDataRes =>
      let indices := (CSVHandler.get_images_for_page ss.store pageUrl).map (fun p => p.1)
      { ss with
        store := indices.foldl (fun s i =>
          let imgUrl := (s.getD i default).dest
          let imageData := (pageDataRes.images.lookup imgUrl).getD
            { adjacentText := "", imgError := none }
          updateAt (fun r =>
            { r with titleTag := some pageDataRes.title,
                     h1Tag := some pageDataRes.h1,
                     adjacentText := some imageData.adjacentText }) i s) ss.store }
    | .exc _ => ss

/-- Result of a `process_csv_file` run (state plus the three output tables,
added below). -/
def initState (store : List Row) : PState :=
  { store := store
    processedImages := []
    batch := []
    batchRows := []
    results := { totalProcessed := 0, totalSkipped := 0, totalFailed := 0 }
    scrapeLog := []
    genLog := []
    downloadLog := []
    aborted := none }

/-- `processor.process_csv_file` from after the cost gate: scraping loop over
the unique pages, then the row loop over the `rows_to_process` index
snapshot, then the final flush. A `ForbiddenError` raised while scraping
propagates out of `process_csv_file`, so the row loop never runs. -/
def process_csv_file (env : Env) (store0 : List Row) : PState :=
  let rowIndices := (CSVHandler.get_rows_to_process store0).map (fun p => p.1)
  let uniquePages := CSVHandler.get_unique_pages store0
  let ss := uniquePages.foldl (scrapePage env) (initState store0)
  if ss.aborted.isSome then ss
  else
    let st := rowIndices.foldl (processRow env) ss
    if st.batch.isEmpty then st else flushBatch env st

end Processor

/-! ## Output tables -/

namespace Processor

/-- The `simplified_data` accumulation of `process_csv_file` (lines 435–441):
rows in store order, kept when `is_valid_alt_text` holds and the URL was not
already collected. -/
def simplifiedTable (store : List Row) : List (String × String) :=
  store.foldl (fun acc r =>
    if is_valid_alt_text r.altText ∧ r.dest ∉ acc.map (fun e => e.1) then
      acc ++ [(r.dest, strOfCell r.altText)]
    else acc) []

/-- The `filename_data` table: the simplified table re-keyed by bare
filename. -/
def filenameTable (store : List Row) : List (String × String) :=
  (simplifiedTable store).map (fun e => (urlFilename e.1, e.2))

/-- The full row table written to `*-original-updated.csv`: the store itself,
all columns and all rows including failures. -/
def originalTable (store : List Row) : List Row := store

/-- `process_csv_file` up to and including the restart handling and the cost
gate of lines 152–171: restart clears every `ALT text` unconditionally; a
configured `max_cost` aborts via `ValueError` when
`config.max_cost and estimated_cost > config.max_cost` (Python truthiness:
`None` or `0.0` disables the gate) — before the scraping loop, the row loop
and any collaborator call. -/
def runWithConfig (env : Env) (store0 : List Row) (maxCost : Option ℚ)
    (restart : Bool) : Option PState :=
  let store1 :=
    if restart then store0.map (fun r => { r with altText := some "" }) else store0
  let rowsToProcess := CSVHandler.get_rows_to_process store1
  if rowsToProcess.length = 0 then some (initState store1)
  else
    let estimatedCost := estimate_cost rowsToProcess.length
    let costExceeded := match maxCost with
      | some c => decide (c ≠ 0) && decide (estimatedCost > c)
      | none => false
    if costExceeded then none  -- ValueError raised, nothing processed
    else some (process_csv_file env store1)

end Processor

/-- Fuelled helper for `dedupByKey`, structurally recursive so that model
runs reduce inside the kernel. -/
def dedupByKeyF : Nat → List (String × String) → List (String × String)
  | 0, _ => []
  | _ + 1, [] => []
  | fuel + 1, e :: t => e :: dedupByKeyF fuel (t.filter (fun e2 => e2.1 ≠ e.1))

/-- `DataFrame.drop_duplicates(subset=[key])`: keeps the first occurrence of
each key. -/
def dedupByKey (l : List (String × String)) : List (String × String) :=
  dedupByKeyF l.length l

/-- Code-point comparison of strings, the order `DataFrame.sort_values` sorts
string columns by. -/
def charsLe : List Char → List Char → Bool
  | [], _ => true
  | _ :: _, [] => false
  | a :: as, b :: bs => if a < b then true else if b < a then false else charsLe as bs

/-- Insertion into a key-sorted table. -/
def insertSorted (e : String × String) :
    List (String × String) → List (String × String)
  | [] => [e]
  | f :: t => if charsLe e.1.data f.1.data then e :: f :: t else f :: insertSorted e t

/-- `DataFrame.sort_values(key)`: the table sorted by its key column (any
comparison sort yields this order; only the order, not the algorithm, is
observable in the written CSV). -/
def sortByKey : List (String × String) → List (String × String)
  | [] => []
  | e :: t => insertSorted e (sortByKey t)

namespace GenAlt

/-- `generate_alt_text.generate_simplified_csv`: rows with non-null, nonempty
`ALT text`, filtered by `is_valid_alt_text`, reduced to
`(Destination, ALT text)`, de-duplicated on `Destination` keeping the first
occurrence, and sorted by image URL. -/
def simplifiedTable (store : List Row) : List (String × String) :=
  let withAlt := store.filter (fun r => r.altText.isSome ∧ r.altText ≠ some "")
  let valid := withAlt.filter (fun r => is_valid_alt_text r.altText)
  let deduped := dedupByKey (valid.map (fun r => (r.dest, strOfCell r.altText)))
  sortByKey deduped

/-- `generate_alt_text.generate_filename_csv`: same filters, keyed by the
bare filename, de-duplicated on filename, sorted by filename. -/
def filenameTable (store : List Row) : List (String × String) :=
  let withAlt := store.filter (fun r => r.altText.isSome ∧ r.altText ≠ some "")
  let valid := withAlt.filter (fun r => is_valid_alt_text r.altText)
  let deduped := dedupByKey (valid.map (fun r => (urlFilename r.dest, strOfCell r.altText)))
  sortByKey deduped

end GenAlt

/-! ## Derived predicates and fixtures used by the theorems -/

namespace GenAlt

/-- `admitsNormal env pd p = true` iff row `p` passes every admission check of
`process_images` with a normal-size image: no declared size, a successful
fetch within the 5MB and 2000px limits, successful encoding, and no scrape
error recorded for its page or image. -/
def admitsNormal (env : Env) (pd : List (String × PageCtx)) (p : Nat × Row) : Bool :=
  p.2.declaredSize == none &&
  (match env.fetch p.2.dest with
   | .ok bytes w h =>
     decide (bytes ≤ MAX_FILE_SIZE_BYTES) && decide (max w h ≤ 2000)
   | .err => false) &&
  (env.encode p.2.dest).isSome &&
  !(optTruthy (pageInfoOf pd p.2.source).2.2) &&
  !(optTruthy (imageInfoOf pd p.2.source p.2.dest).2)

/-- The batch sizes of the vision calls issued for `n` admitted normal-size
rows: full batches of `BATCH_SIZE`, then the non-empty remainder. -/
def callSizes (n : Nat) : List Nat :=
  List.replicate (n / BATCH_SIZE) BATCH_SIZE ++
    (if n % BATCH_SIZE = 0 then [] else [n % BATCH_SIZE])

/-- The `already_scraped` test of `process_images` read off a store: the
`title tag` of the page's first row is not NaN (rowless pages never scrape
either, as `iloc[0]` is unreachable for them). -/
def pageAlreadyScraped (store : List Row) (p : String) : Bool :=
  match (CSVHandler.get_images_for_page store p).head? with
  | some q => q.2.titleTag.isSome
  | none => true

/-- The scrape oracle never signals 403 Forbidden. -/
def NoForbidden (env : Env) : Prop :=
  ∀ p urls m, env.scrape p urls ≠ .forbidden m

end GenAlt

namespace Processor

/-- The vision collaborator honours its contract: when it returns instead of
raising, it returns exactly one result per submitted image, each carrying a
(Python-truthy) alt text or error. -/
def WellFormedGen (env : Env) : Prop :=
  ∀ payload, match env.gen payload with
    | .raise _ => True
    | .results rs =>
      rs.length = payload.length ∧
      ∀ r ∈ rs, optTruthy r.altText ∨ optTruthy r.error

/-- The scrape oracle never signals 403 Forbidden. -/
def NoForbiddenP (env : Env) : Prop :=
  ∀ p m, env.scrape p ≠ .forbidden m

end Processor

/-! ### Concrete fixtures -/

/-- A row whose page context is already stored (empty-string title, so the
CLI pipeline's `pd.notna` check treats the page as scraped). -/
def mkStoredRow (src dst : String) : Row :=
  { source := src, dest := dst, titleTag := some "", h1Tag := some "",
    adjacentText := some "", message := "", altText := some "", declaredSize := none }

/-- A row of a fresh table: every output cell NaN after `pd.read_csv` of a
file whose added columns are empty. -/
def mkFreshRow (src dst : String) : Row :=
  { source := src, dest := dst, titleTag := none, h1Tag := none,
    adjacentText := none, message := "", altText := some "", declaredSize := none }

/-- CLI-pipeline oracle: every fetch yields a small 500×500 image, except the
first URL of `demoStoreVariants`, which yields a 2500×1500 (large-band)
image; the vision collaborator always returns a per-image error. -/
def envFailGen : GenAlt.Env :=
  { scrape := fun _ _ => .ok { title := "T", h1 := "H", pageError := none, images := [] }
    fetch := fun u =>
      if u = "https://e.com/a-300x300.jpg" then .ok 1000 2500 1500 else .ok 1000 500 500
    encode := fun _ => some "b64"
    mediaTypeOf := fun _ => "image/jpeg"
    gen := fun b => .results (b.map (fun it =>
      { imageUrl := it.imageUrl, altText := none, error := some "boom" })) }

/-- CLI-pipeline oracle where every fetch is a small image and the vision
collaborator succeeds on every image. -/
def envOkGen : GenAlt.Env :=
  { envFailGen with
    fetch := fun _ => .ok 1000 500 500
    gen := fun b => .results (b.map (fun it =>
      { imageUrl := it.imageUrl, altText := some ("alt of " ++ it.imageUrl),
        error := none })) }

/-- `envOkGen` except that `https://e.com/big.jpg` is a 2500×900 image (large
band). -/
def envLarge : GenAlt.Env :=
  { envOkGen with
    fetch := fun u =>
      if u = "https://e.com/big.jpg" then .ok 1000 2500 900 else .ok 1000 400 400 }

/-- Two rows that are resize variants of one base image `a.jpg`; the first is
in the large band under `envFailGen`. -/
def demoStoreVariants : List Row :=
  [mkStoredRow "https://e.com/p" "https://e.com/a-300x300.jpg",
   mkStoredRow "https://e.com/p" "https://e.com/a-600x600.jpg"]

/-- Two rows that are resize variants of one base image `b.jpg`, both
normal-size under `envOkGen`. -/
def demoStoreB : List Row :=
  [mkStoredRow "https://e.com/p" "https://e.com/b-300x300.jpg",
   mkStoredRow "https://e.com/p" "https://e.com/b-600x600.jpg"]

/-- A normal row followed by a large-band row (under `envLarge`). -/
def demoStoreLarge : List Row :=
  [mkStoredRow "https://e.com/p" "https://e.com/n.jpg",
   mkStoredRow "https://e.com/p" "https://e.com/big.jpg"]

/-- Seventeen rows with pairwise distinct image identities. -/
def demoStore17 : List Row :=
  (List.range 17).map (fun i =>
    mkStoredRow "https://e.com/p" ("https://e.com/img" ++ toString i ++ ".jpg"))

/-- One not-yet-scraped row. -/
def demoStoreFresh : List Row :=
  [mkFreshRow "https://e.com/p" "https://e.com/n.jpg"]

/-- Programmatic-pipeline oracle: successful scrapes and fetches, vision
collaborator succeeds on every image. -/
def pEnvOk : Processor.Env :=
  { scrape := fun _ => .ok { title := "T", h1 := "H", pageError := none, images := [] }
    fetch := fun _ => .ok 1000 500 500
    encode := fun _ => some "b64"
    mediaTypeOf := fun _ => "image/jpeg"
    gen := fun b => .results (b.map (fun _ =>
      ({ altText := some "An alt", error := none } : Processor.GenResult))) }

/-- Two rows that are resize variants of one base image `pic.jpg`. -/
def pStoreVariants : List Row :=
  [mkFreshRow "https://e.com/p" "https://e.com/pic-300x300.jpg",
   mkFreshRow "https://e.com/p" "https://e.com/pic-1024x768.jpg"]

/-- One row whose page already has a stored (non-null) title but whose alt
text is still empty. -/
def pStoreScraped : List Row :=
  [{ mkFreshRow "https://e.com/page" "https://e.com/i.jpg" with
      titleTag := some "Stored title" }]

/-- A store holding a skipped-as-too-large row and a row whose alt text
contains "too small". -/
def demoStoreTables : List Row :=
  [{ mkFreshRow "p" "https://e.com/big.jpg" with
      altText := some "Image too large (9000x9000 pixels)" },
   { mkFreshRow "p" "https://e.com/ok.jpg" with
      altText := some "A fine description" },
   { mkFreshRow "p" "https://e.com/tiny.jpg" with
      altText := some "Skipped: Too small (50x50)" }]


/-- A single batch item as built by the admission path. -/
def demoItem : GenAlt.BatchItem :=
  { imageBase64 := "b64", mediaType := "image/jpeg", title := "T", h1 := "H",
    adjacentText := "", imageUrl := "https://e.com/b.jpg", index := 0,
    sizeCategory := SizeCategory.normal }

/-- A two-item batch payload: distinct base filenames (`a.jpg`, `c.jpg`), as
every payload of the CLI batch loop has. -/
def demoBatch2 : List GenAlt.BatchItem :=
  [{ imageBase64 := "b64", mediaType := "image/jpeg", title := "T", h1 := "H",
     adjacentText := "", imageUrl := "https://e.com/a-300x300.jpg", index := 0,
     sizeCategory := SizeCategory.normal },
   { imageBase64 := "b64", mediaType := "image/jpeg", title := "T", h1 := "H",
     adjacentText := "", imageUrl := "https://e.com/c.jpg", index := 1,
     sizeCategory := SizeCategory.normal }]

/-- A loop state whose exact-URL cache already holds a result for
`https://e.com/b-300x300.jpg`. -/
def demoCacheState : GenAlt.PState :=
  { GenAlt.initState demoStoreB with
      processedImages := [("https://e.com/b-300x300.jpg", some "A cached alt")] }


/-! ## Invariants stated about the models -/

namespace GenAlt

/-- Base filenames of the items of a batch payload (as tracked by
`batch_base_filenames`). -/
def payloadBases (pl : List BatchItem) : List String :=
  pl.map (fun it => extract_base_filename it.imageUrl)

/-- Loop invariant of the batch phase: the in-batch map keys are exactly the
base filenames of the open batch, the open batch has pairwise distinct base
filenames, and every payload already submitted had pairwise distinct base
filenames. -/
def BatchInv (st : PState) : Prop :=
  (∀ b, (st.batchBase.lookup b).isSome = true ↔ b ∈ payloadBases st.batch) ∧
  (payloadBases st.batch).Nodup ∧
  (∀ pl ∈ st.genLog, (payloadBases pl).Nodup)

/-- Loop invariant for the batch-size accounting of `process_images` over
rows that are all admitted at normal size with pairwise fresh image
identities: after `k` admissions, the submitted payloads are the full
batches of `BATCH_SIZE` and the open batch holds the remainder; the caches,
the in-batch map and the open batch know nothing about the remaining
rows. -/
def SizeInv (st : PState) (rows : List (Nat × Row)) (k : Nat) : Prop :=
  st.genLog.map List.length = List.replicate (k / BATCH_SIZE) BATCH_SIZE ∧
  st.batch.length = k % BATCH_SIZE ∧
  st.pending = [] ∧
  (∀ p ∈ rows, st.processedImages.lookup p.2.dest = none) ∧
  (∀ p ∈ rows, st.processedBase.lookup (extract_base_filename p.2.dest) = none) ∧
  (∀ p ∈ rows, st.batchBase.lookup (extract_base_filename p.2.dest) = none) ∧
  (∀ p ∈ rows, ∀ it ∈ st.batch,
    extract_base_filename it.imageUrl ≠ extract_base_filename p.2.dest)

/-- Loop invariant for large-image isolation: the open batch never holds a
large-band item, and in every submitted payload only the final item can be
in the large band. -/
def LargeInv (st : PState) : Prop :=
  (∀ it ∈ st.batch, it.sizeCategory ≠ SizeCategory.large) ∧
  (∀ pl ∈ st.genLog, ∀ it ∈ pl.dropLast, it.sizeCategory ≠ SizeCategory.large)

end GenAlt

/-! ## General lemmas -/

theorem foldl_inv {σ : Type _} {α : Type _} (P : σ → Prop) (f : σ → α → σ)
    (h : ∀ s a, P s → P (f s a)) :
    ∀ (l : List α) (s : σ), P s → P (l.foldl f s) := by
  intro l
  induction l with
  | nil => intro s hs; exact hs
  | cons a t ih => intro s hs; exact ih _ (h s a hs)

theorem length_updateAt (f : Row → Row) :
    ∀ (i : Nat) (s : List Row), (updateAt f i s).length = s.length := by
  intro i
  induction i with
  | zero => intro s; cases s <;> rfl
  | succ n ih =>
    intro s
    cases s with
    | nil => rfl
    | cons r rs => simpa [updateAt] using ih rs

theorem getD_updateAt_ne (f : Row → Row) (d : Row) :
    ∀ (i j : Nat), i ≠ j → ∀ s : List Row, (updateAt f i s).getD j d = s.getD j d := by
  intro i
  induction i with
  | zero =>
    intro j hij s
    cases s with
    | nil => rfl
    | cons r rs =>
      cases j with
      | zero => exact absurd rfl hij
      | succ m => simp [updateAt]
  | succ n ih =>
    intro j hij s
    cases s with
    | nil => rfl
    | cons r rs =>
      cases j with
      | zero => simp [updateAt]
      | succ m =>
        simp only [updateAt, List.getD_cons_succ]
        exact ih m (fun h => hij (by omega)) rs

theorem getD_updateAt_self (f : Row → Row) (d : Row) :
    ∀ (i : Nat) (s : List Row), i < s.length →
      (updateAt f i s).getD i d = f (s.getD i d) := by
  intro i
  induction i with
  | zero =>
    intro s hs
    cases s with
    | nil => simp at hs
    | cons r rs => rfl
  | succ n ih =>
    intro s hs
    cases s with
    | nil => simp at hs
    | cons r rs =>
      simp only [updateAt, List.getD_cons_succ]
      exact ih rs (by simpa using hs)

theorem mem_map_filter_enumFrom {P : Row → Bool} {f : Row → String} :
    ∀ (l : List Row) (n : Nat) (a : String),
      (a ∈ ((List.enumFrom n l).filter (fun p => P p.2)).map (fun p => f p.2)) ↔
        ∃ r ∈ l, P r = true ∧ f r = a := by
  intro l
  induction l with
  | nil => intro n a; simp [List.enumFrom]
  | cons r t ih =>
    intro n a
    have he : List.enumFrom n (r :: t) = (n, r) :: List.enumFrom (n + 1) t := rfl
    cases hP : P r with
    | true =>
      rw [he, List.filter_cons]
      simp only [hP, if_true, List.map_cons, List.mem_cons, ih]
      constructor
      · rintro (h1 | ⟨r', hr', hPr', hfr'⟩)
        · exact ⟨r, Or.inl rfl, hP, h1.symm⟩
        · exact ⟨r', Or.inr hr', hPr', hfr'⟩
      · rintro ⟨r', (rfl | hr'), hPr', hfr'⟩
        · exact Or.inl hfr'.symm
        · exact Or.inr ⟨r', hr', hPr', hfr'⟩
    | false =>
      rw [he, List.filter_cons]
      simp only [hP, Bool.false_eq_true, if_false, ih, List.mem_cons]
      constructor
      · rintro ⟨r', hr', hPr', hfr'⟩
        exact ⟨r', Or.inr hr', hPr', hfr'⟩
      · rintro ⟨r', (rfl | hr'), hPr', hfr'⟩
        · rw [hP] at hPr'; exact absurd hPr' (by simp)
        · exact ⟨r', hr', hPr', hfr'⟩

theorem mem_fst_filter_enumFrom {P : Row → Bool} :
    ∀ (l : List Row) (n i : Nat),
      (i ∈ ((List.enumFrom n l).filter (fun p => P p.2)).map Prod.fst) ↔
        ∃ k, k < l.length ∧ i = n + k ∧ P (l.getD k default) = true := by
  intro l
  induction l with
  | nil => intro n i; simp [List.enumFrom]
  | cons r t ih =>
    intro n i
    have he : List.enumFrom n (r :: t) = (n, r) :: List.enumFrom (n + 1) t := rfl
    cases hP : P r with
    | true =>
      rw [he, List.filter_cons]
      simp only [hP, if_true, List.map_cons, List.mem_cons, ih]
      constructor
      · rintro (rfl | ⟨k, hk, rfl, hPk⟩)
        · exact ⟨0, by simp, by omega, by simpa using hP⟩
        · exact ⟨k + 1, by simpa using hk, by omega, by simpa using hPk⟩
      · rintro ⟨k, hk, rfl, hPk⟩
        cases k with
        | zero => exact Or.inl (by omega)
        | succ m =>
          exact Or.inr ⟨m, by simpa using hk, by omega, by simpa using hPk⟩
    | false =>
      rw [he, List.filter_cons]
      simp only [hP, Bool.false_eq_true, if_false, ih]
      constructor
      · rintro ⟨k, hk, rfl, hPk⟩
        exact ⟨k + 1, by simpa using hk, by omega, by simpa using hPk⟩
      · rintro ⟨k, hk, rfl, hPk⟩
        cases k with
        | zero =>
          rw [show (r :: t).getD 0 default = r from rfl, hP] at hPk
          exact absurd hPk (by simp)
        | succ m =>
          exact ⟨m, by simpa using hk, by omega, by simpa using hPk⟩

theorem mem_uniqueFirstF (a : String) :
    ∀ (fuel : Nat) (l : List String), l.length ≤ fuel →
      (a ∈ CSVHandler.uniqueFirstF fuel l ↔ a ∈ l) := by
  intro fuel
  induction fuel with
  | zero =>
    intro l hl
    rw [Nat.le_zero, List.length_eq_zero] at hl
    subst hl
    simp [CSVHandler.uniqueFirstF]
  | succ n ih =>
    intro l hl
    cases l with
    | nil => simp [CSVHandler.uniqueFirstF]
    | cons b t =>
      have hlen : (t.filter (fun x => x ≠ b)).length ≤ n :=
        le_trans (List.length_filter_le _ _) (Nat.succ_le_succ_iff.mp (by simpa using hl))
      rw [show CSVHandler.uniqueFirstF (n + 1) (b :: t) =
        b :: CSVHandler.uniqueFirstF n (t.filter (fun x => x ≠ b)) from rfl]
      simp only [List.mem_cons, ih _ hlen, List.mem_filter]
      constructor
      · rintro (rfl | ⟨ha, _⟩)
        · exact Or.inl rfl
        · exact Or.inr ha
      · rintro (rfl | ha)
        · exact Or.inl rfl
        · by_cases hab : a = b
          · exact Or.inl hab
          · exact Or.inr ⟨ha, by simpa using hab⟩

theorem mem_uniqueFirst (a : String) (l : List String) :
    a ∈ CSVHandler.uniqueFirst l ↔ a ∈ l :=
  mem_uniqueFirstF a l.length l le_rfl

theorem nodup_uniqueFirstF :
    ∀ (fuel : Nat) (l : List String), l.length ≤ fuel →
      (CSVHandler.uniqueFirstF fuel l).Nodup := by
  intro fuel
  induction fuel with
  | zero =>
    intro l hl
    rw [Nat.le_zero, List.length_eq_zero] at hl
    subst hl
    simp [CSVHandler.uniqueFirstF]
  | succ n ih =>
    intro l hl
    cases l with
    | nil => simp [CSVHandler.uniqueFirstF]
    | cons b t =>
      have hlen : (t.filter (fun x => x ≠ b)).length ≤ n :=
        le_trans (List.length_filter_le _ _) (Nat.succ_le_succ_iff.mp (by simpa using hl))
      rw [show CSVHandler.uniqueFirstF (n + 1) (b :: t) =
        b :: CSVHandler.uniqueFirstF n (t.filter (fun x => x ≠ b)) from rfl]
      refine List.Nodup.cons (fun hmem => ?_) (ih _ hlen)
      rw [mem_uniqueFirstF _ _ _ hlen, List.mem_filter] at hmem
      simp at hmem

theorem nodup_uniqueFirst (l : List String) : (CSVHandler.uniqueFirst l).Nodup :=
  nodup_uniqueFirstF l.length l le_rfl
theorem indexOf_filter_lt {P : String → Bool} :
    ∀ (l : List String) (p q : String), p ∈ l.filter P → q ∈ l.filter P →
      (l.filter P).indexOf p < (l.filter P).indexOf q →
      l.indexOf p < l.indexOf q := by
  intro l
  induction l with
  | nil => intro p q hp _ _; simp at hp
  | cons a t ih =>
    intro p q hp hq hlt
    cases hP : P a with
    | true =>
      rw [List.filter_cons] at hp hq hlt
      simp only [hP, if_true] at hp hq hlt
      by_cases hqa : q = a
      · subst hqa
        rw [List.indexOf_cons_self] at hlt
        exact absurd hlt (Nat.not_lt_zero _)
      · by_cases hpa : p = a
        · subst hpa
          rw [List.indexOf_cons_self]
          rw [List.indexOf_cons_ne t (fun h => hqa h.symm)]
          exact Nat.succ_pos _
        · have hp' : p ∈ t.filter P := by
            rcases List.mem_cons.mp hp with rfl | h
            · exact absurd rfl hpa
            · exact h
          have hq' : q ∈ t.filter P := by
            rcases List.mem_cons.mp hq with rfl | h
            · exact absurd rfl hqa
            · exact h
          rw [List.indexOf_cons_ne _ (fun h => hpa h.symm),
              List.indexOf_cons_ne _ (fun h => hqa h.symm)] at hlt
          rw [List.indexOf_cons_ne t (fun h => hpa h.symm),
              List.indexOf_cons_ne t (fun h => hqa h.symm)]
          exact Nat.succ_lt_succ (ih p q hp' hq' (Nat.lt_of_succ_lt_succ hlt))
    | false =>
      rw [List.filter_cons] at hp hq hlt
      simp only [hP, Bool.false_eq_true, if_false] at hp hq hlt
      have hpa : p ≠ a := fun h => by
        have := (List.mem_filter.mp hp).2
        rw [h, hP] at this
        simp at this
      have hqa : q ≠ a := fun h => by
        have := (List.mem_filter.mp hq).2
        rw [h, hP] at this
        simp at this
      rw [List.indexOf_cons_ne t (fun h => hpa h.symm),
          List.indexOf_cons_ne t (fun h => hqa h.symm)]
      exact Nat.succ_lt_succ (ih p q hp hq hlt)

theorem pairwise_indexOf_uniqueFirstF :
    ∀ (fuel : Nat) (l : List String), l.length ≤ fuel →
      (CSVHandler.uniqueFirstF fuel l).Pairwise
        (fun p q => l.indexOf p < l.indexOf q) := by
  intro fuel
  induction fuel with
  | zero =>
    intro l hl
    rw [Nat.le_zero, List.length_eq_zero] at hl
    subst hl
    simp [CSVHandler.uniqueFirstF]
  | succ n ih =>
    intro l hl
    cases l with
    | nil => simp [CSVHandler.uniqueFirstF]
    | cons b t =>
      have hlen : (t.filter (fun x => x ≠ b)).length ≤ n :=
        le_trans (List.length_filter_le _ _) (Nat.succ_le_succ_iff.mp (by simpa using hl))
      rw [show CSVHandler.uniqueFirstF (n + 1) (b :: t) =
        b :: CSVHandler.uniqueFirstF n (t.filter (fun x => x ≠ b)) from rfl]
      refine List.Pairwise.cons (fun q hq => ?_) ?_
      · rw [mem_uniqueFirstF _ _ _ hlen, List.mem_filter] at hq
        have hqb : q ≠ b := by simpa using hq.2
        rw [List.indexOf_cons_self, List.indexOf_cons_ne t (fun h => hqb h.symm)]
        exact Nat.succ_pos _
      · refine (ih _ hlen).imp_of_mem (fun {p q} hp hq hlt => ?_)
        rw [mem_uniqueFirstF _ _ _ hlen, List.mem_filter] at hp hq
        have hpb : p ≠ b := by simpa using hp.2
        have hqb : q ≠ b := by simpa using hq.2
        have hp' : p ∈ t.filter (fun x => x ≠ b) :=
          List.mem_filter.mpr ⟨hp.1, by simpa using hpb⟩
        have hq' : q ∈ t.filter (fun x => x ≠ b) :=
          List.mem_filter.mpr ⟨hq.1, by simpa using hqb⟩
        have ht := indexOf_filter_lt t p q hp' hq' hlt
        rw [List.indexOf_cons_ne t (fun h => hpb h.symm),
            List.indexOf_cons_ne t (fun h => hqb h.symm)]
        exact Nat.succ_lt_succ ht

theorem pairwise_indexOf_uniqueFirst (l : List String) :
    (CSVHandler.uniqueFirst l).Pairwise (fun p q => l.indexOf p < l.indexOf q) :=
  pairwise_indexOf_uniqueFirstF l.length l le_rfl

/-! ## Claims -/

/-- **C1, counterexample.** The claim states that canonicalization strips a
`-scaled` suffix, so that `image-scaled.jpg` canonicalizes to `image.jpg`.
`generate_alt_text.extract_base_filename` — one of the two canonicalizers the
claim covers — only removes `-<digits>x<digits>` groups and leaves
`image-scaled.jpg` unchanged. -/
theorem C1_counterexample :
    GenAlt.extract_base_filename "https://example.com/image-scaled.jpg" =
      "image-scaled.jpg" ∧
    ("image-scaled.jpg" : String) ≠ "image.jpg" := by
  decide

/-- **C1, amended.** `processor.extract_base_filename` strips one trailing
`-<digits>x<digits>` group and a `-scaled` suffix before the extension and
maps all three of the claim's examples as stated;
`generate_alt_text.extract_base_filename` removes every
`-<digits>x<digits>` group (anywhere in the filename) but preserves
`-scaled`; both take the last path segment with the query string removed,
preserve plain numeric suffixes, and keep `pic-1.jpg` and `pic.jpg`
distinct. -/
theorem C1_amended_canonicalization :
    Processor.extract_base_filename "https://example.com/pic-1-300x300.jpg" = "pic-1.jpg" ∧
    Processor.extract_base_filename "https://example.com/pic-300x300.jpg" = "pic.jpg" ∧
    Processor.extract_base_filename "https://example.com/image-scaled.jpg" = "image.jpg" ∧
    Processor.extract_base_filename "https://example.com/pic-1.jpg?v=2" = "pic-1.jpg" ∧
    GenAlt.extract_base_filename "https://example.com/pic-1-300x300.jpg" = "pic-1.jpg" ∧
    GenAlt.extract_base_filename "https://example.com/pic-300x300.jpg" = "pic.jpg" ∧
    GenAlt.extract_base_filename "https://example.com/image-scaled.jpg" = "image-scaled.jpg" ∧
    GenAlt.extract_base_filename "https://example.com/pic-1.jpg?v=2" = "pic-1.jpg" ∧
    ("pic-1.jpg" : String) ≠ "pic.jpg" := by
  decide

/-- **C10.** `get_unique_pages` returns exactly the distinct `Source` URLs of
rows with null/empty alt text, without duplicates, ordered by first
occurrence among the rows to process; a page all of whose rows have
non-empty alt text is never returned. -/
theorem C10_unique_pages (store : List Row) :
    (∀ p, p ∈ CSVHandler.get_unique_pages store ↔
        ∃ r ∈ store, altIsEmpty r.altText = true ∧ r.source = p) ∧
    (CSVHandler.get_unique_pages store).Nodup ∧
    (CSVHandler.get_unique_pages store).Pairwise (fun p q =>
      ((CSVHandler.get_rows_to_process store).map (fun pr => pr.2.source)).indexOf p <
      ((CSVHandler.get_rows_to_process store).map (fun pr => pr.2.source)).indexOf q) ∧
    (∀ p, (∀ r ∈ store, r.source = p → altIsEmpty r.altText = false) →
        p ∉ CSVHandler.get_unique_pages store) := by
  have hmem : ∀ p, p ∈ CSVHandler.get_unique_pages store ↔
      ∃ r ∈ store, altIsEmpty r.altText = true ∧ r.source = p := by
    intro p
    rw [CSVHandler.get_unique_pages, mem_uniqueFirst]
    exact @mem_map_filter_enumFrom (fun r => altIsEmpty r.altText)
      (fun r => r.source) store 0 p
  refine ⟨hmem, nodup_uniqueFirst _, pairwise_indexOf_uniqueFirst _, ?_⟩
  intro p hall hmem'
  rcases (hmem p).mp hmem' with ⟨r, hr, hempty, hsrc⟩
  rw [hall r hr hsrc] at hempty
  exact absurd hempty (by simp)

/-- **C10, witness.** -/
theorem C10_witness :
    "https://e.com/p" ∈ CSVHandler.get_unique_pages demoStoreFresh := by
  exact ((C10_unique_pages demoStoreFresh).1 "https://e.com/p").mpr
    ⟨mkFreshRow "https://e.com/p" "https://e.com/n.jpg",
      by simp [demoStoreFresh], rfl, rfl⟩

/-! ### Scheduler-state preservation lemmas for the CLI batch loop -/

theorem foldl_proj_eq {σ α β : Type _} (proj : σ → β) (f : σ → α → σ)
    (hf : ∀ s a, proj (f s a) = proj s) :
    ∀ (l : List α) (s : σ), proj (l.foldl f s) = proj s := by
  intro l
  induction l with
  | nil => intro s; rfl
  | cons a t ih => intro s; rw [List.foldl_cons, ih, hf]

theorem applyGenResult_sched (b : List GenAlt.BatchItem) (i : List Nat)
    (st : GenAlt.PState) (r : GenAlt.GenResult) :
    (GenAlt.applyGenResult b i st r).batch = st.batch ∧
    (GenAlt.applyGenResult b i st r).batchIndices = st.batchIndices ∧
    (GenAlt.applyGenResult b i st r).batchBase = st.batchBase ∧
    (GenAlt.applyGenResult b i st r).pending = st.pending ∧
    (GenAlt.applyGenResult b i st r).genLog = st.genLog ∧
    (GenAlt.applyGenResult b i st r).downloadLog = st.downloadLog := by
  unfold GenAlt.applyGenResult
  split
  · exact ⟨rfl, rfl, rfl, rfl, rfl, rfl⟩
  · split
    · exact ⟨rfl, rfl, rfl, rfl, rfl, rfl⟩
    · split <;> exact ⟨rfl, rfl, rfl, rfl, rfl, rfl⟩

theorem markBatchFailed_sched (b : List GenAlt.BatchItem) (i : List Nat)
    (msg : String) (st : GenAlt.PState) :
    (GenAlt.markBatchFailed b i msg st).batch = st.batch ∧
    (GenAlt.markBatchFailed b i msg st).batchIndices = st.batchIndices ∧
    (GenAlt.markBatchFailed b i msg st).batchBase = st.batchBase ∧
    (GenAlt.markBatchFailed b i msg st).pending = st.pending ∧
    (GenAlt.markBatchFailed b i msg st).genLog = st.genLog ∧
    (GenAlt.markBatchFailed b i msg st).downloadLog = st.downloadLog := by
  unfold GenAlt.markBatchFailed
  refine ⟨?_, ?_, ?_, ?_, ?_, ?_⟩ <;>
    exact foldl_proj_eq _ _ (fun s p => by dsimp only; split <;> rfl) _ _

theorem process_batch_sched (env : GenAlt.Env) (b : List GenAlt.BatchItem)
    (i : List Nat) (st : GenAlt.PState) :
    (GenAlt.process_batch env b i st).batch = st.batch ∧
    (GenAlt.process_batch env b i st).batchIndices = st.batchIndices ∧
    (GenAlt.process_batch env b i st).batchBase = st.batchBase ∧
    (GenAlt.process_batch env b i st).pending = st.pending ∧
    (GenAlt.process_batch env b i st).genLog = st.genLog ++ [b] := by
  unfold GenAlt.process_batch
  split
  next rs heq =>
    refine ⟨?_, ?_, ?_, ?_, ?_⟩ <;>
      exact foldl_proj_eq _ _ (fun s r => by
        have h := applyGenResult_sched b i s r
        exact by tauto) _ _
  next msg heq =>
    have h := markBatchFailed_sched b i msg { st with genLog := st.genLog ++ [b] }
    exact ⟨h.1, h.2.1, h.2.2.1, h.2.2.2.1, h.2.2.2.2.1⟩

theorem resolvePendingOne_sched (st : GenAlt.PState) (v : GenAlt.PendingVariant) :
    (GenAlt.resolvePendingOne st v).batch = st.batch ∧
    (GenAlt.resolvePendingOne st v).batchIndices = st.batchIndices ∧
    (GenAlt.resolvePendingOne st v).batchBase = st.batchBase ∧
    (GenAlt.resolvePendingOne st v).pending = st.pending ∧
    (GenAlt.resolvePendingOne st v).genLog = st.genLog ∧
    (GenAlt.resolvePendingOne st v).downloadLog = st.downloadLog := by
  unfold GenAlt.resolvePendingOne
  split <;> exact ⟨rfl, rfl, rfl, rfl, rfl, rfl⟩

theorem flushBatch_sched (env : GenAlt.Env) (st : GenAlt.PState) :
    (GenAlt.flushBatch env st).batch = [] ∧
    (GenAlt.flushBatch env st).batchIndices = [] ∧
    (GenAlt.flushBatch env st).batchBase = [] ∧
    (GenAlt.flushBatch env st).pending = [] ∧
    (GenAlt.flushBatch env st).genLog = st.genLog ++ [st.batch] := by
  unfold GenAlt.flushBatch
  refine ⟨rfl, rfl, rfl, rfl, ?_⟩
  have h1 := (process_batch_sched env st.batch st.batchIndices st).2.2.2.2
  have h2 := foldl_proj_eq (fun s : GenAlt.PState => s.genLog) GenAlt.resolvePendingOne
    (fun s v => (resolvePendingOne_sched s v).2.2.2.2.1)
    (GenAlt.process_batch env st.batch st.batchIndices st).pending
    (GenAlt.process_batch env st.batch st.batchIndices st)
  simpa [h1] using h2

theorem lookup_cons_isSome {β : Type _} (k b : String) (v : β) (l : List (String × β)) :
    (List.lookup b ((k, v) :: l)).isSome = true ↔ b = k ∨ (List.lookup b l).isSome = true := by
  by_cases h : b = k
  · subst h; simp [List.lookup_cons]
  · have hbk : (b == k) = false := by simpa using h
    simp [List.lookup_cons, hbk, h]

theorem payloadBases_append (b : List GenAlt.BatchItem) (it : GenAlt.BatchItem) :
    GenAlt.payloadBases (b ++ [it]) =
      GenAlt.payloadBases b ++ [GenAlt.extract_base_filename it.imageUrl] := by
  simp [GenAlt.payloadBases]

theorem inv_flushBatch (env : GenAlt.Env) (st : GenAlt.PState)
    (hnodup : (GenAlt.payloadBases st.batch).Nodup)
    (hlog : ∀ pl ∈ st.genLog, (GenAlt.payloadBases pl).Nodup)
    (hnolarge : ∀ it ∈ st.batch.dropLast, it.sizeCategory ≠ SizeCategory.large)
    (hlog5 : ∀ pl ∈ st.genLog, ∀ it ∈ pl.dropLast, it.sizeCategory ≠ SizeCategory.large) :
    GenAlt.BatchInv (GenAlt.flushBatch env st) ∧
    GenAlt.LargeInv (GenAlt.flushBatch env st) := by
  obtain ⟨hb, hbi, hbb, hp, hg⟩ := flushBatch_sched env st
  constructor
  · refine ⟨?_, ?_, ?_⟩
    · intro b; rw [hbb, hb]; simp [GenAlt.payloadBases]
    · rw [hb]; simp [GenAlt.payloadBases]
    · intro pl hpl
      rw [hg] at hpl
      rcases List.mem_append.mp hpl with h | h
      · exact hlog pl h
      · rw [List.mem_singleton.mp h]; exact hnodup
  · refine ⟨?_, ?_⟩
    · intro it hit; rw [hb] at hit; simp at hit
    · intro pl hpl
      rw [hg] at hpl
      rcases List.mem_append.mp hpl with h | h
      · exact hlog5 pl h
      · rw [List.mem_singleton.mp h]; exact hnolarge

theorem inv_admitRow (env : GenAlt.Env) (pd : List (String × PageCtx))
    (st : GenAlt.PState) (idx : Nat) (row : Row) (base : String)
    (hbase : (st.batchBase.lookup base).isSome = false)
    (hbaseval : base = GenAlt.extract_base_filename row.dest)
    (hinv : GenAlt.BatchInv st) (hinv5 : GenAlt.LargeInv st) :
    GenAlt.BatchInv (GenAlt.admitRow env pd st idx row base) ∧
    GenAlt.LargeInv (GenAlt.admitRow env pd st idx row base) := by
  obtain ⟨hiff, hnodup, hlog⟩ := hinv
  obtain ⟨hbatch5, hlog5⟩ := hinv5
  have hnotmem : base ∉ GenAlt.payloadBases st.batch := by
    intro hmem
    rw [← hiff base] at hmem
    rw [hbase] at hmem
    exact absurd hmem (by simp)
  have hU : GenAlt.BatchInv st ∧ GenAlt.LargeInv st :=
    ⟨⟨hiff, hnodup, hlog⟩, hbatch5, hlog5⟩
  unfold GenAlt.admitRow
  dsimp only
  split
  · exact hU
  · split
    · exact hU
    · split
      · split <;> exact hU
      · split
        · exact hU
        · split
          · exact hU
          · split
            · exact hU
            · next b64 hb64 =>
                set cat := (download_image (env.fetch row.dest) row.dest).2.1.getD
                  SizeCategory.normal with hcat
                split
                · next hcond =>
                    refine inv_flushBatch env _ ?_ ?_ ?_ ?_
                    · rw [payloadBases_append]
                      rw [List.nodup_append]
                      refine ⟨hnodup, List.nodup_singleton _, ?_⟩
                      intro x hx hx'
                      rw [List.mem_singleton.mp hx'] at hx
                      rw [← hbaseval] at hx
                      exact hnotmem hx
                    · exact hlog
                    · intro it hit
                      rw [List.dropLast_concat] at hit
                      exact hbatch5 it hit
                    · exact hlog5
                · next hcond =>
                    have hcatnl : ¬ cat = SizeCategory.large := by
                      intro h
                      exact hcond (Or.inr h)
                    refine ⟨⟨?_, ?_, hlog⟩, ⟨?_, hlog5⟩⟩
                    · intro b
                      rw [lookup_cons_isSome]
                      rw [payloadBases_append]
                      rw [List.mem_append, List.mem_singleton, ← hbaseval]
                      constructor
                      · rintro (rfl | h)
                        · exact Or.inr rfl
                        · exact Or.inl ((hiff b).mp h)
                      · rintro (h | rfl)
                        · exact Or.inr ((hiff b).mpr h)
                        · exact Or.inl rfl
                    · rw [payloadBases_append]
                      rw [List.nodup_append]
                      refine ⟨hnodup, List.nodup_singleton _, ?_⟩
                      intro x hx hx'
                      rw [List.mem_singleton.mp hx'] at hx
                      rw [← hbaseval] at hx
                      exact hnotmem hx
                    · intro it hit
                      rcases List.mem_append.mp hit with h | h
                      · exact hbatch5 it h
                      · rw [List.mem_singleton.mp h]
                        exact hcatnl

theorem inv_processRow (env : GenAlt.Env) (pd : List (String × PageCtx))
    (st : GenAlt.PState) (p : Nat × Row)
    (hinv : GenAlt.BatchInv st) (hinv5 : GenAlt.LargeInv st) :
    GenAlt.BatchInv (GenAlt.processRow env pd st p) ∧
    GenAlt.LargeInv (GenAlt.processRow env pd st p) := by
  unfold GenAlt.processRow
  dsimp only
  split
  · exact ⟨hinv, hinv5⟩
  · exact ⟨hinv, hinv5⟩
  · split
    · exact ⟨hinv, hinv5⟩
    · exact ⟨hinv, hinv5⟩
    · split
      · exact ⟨hinv, hinv5⟩
      · next hcond =>
          exact inv_admitRow env pd st p.1 p.2 _
            (by simp only [Bool.not_eq_true] at hcond; exact hcond) rfl hinv hinv5

theorem inv_batchPhase (env : GenAlt.Env) (pd : List (String × PageCtx))
    (rows : List (Nat × Row)) (store0 : List Row) :
    GenAlt.BatchInv (GenAlt.batchPhase env pd rows (GenAlt.initState store0)) ∧
    GenAlt.LargeInv (GenAlt.batchPhase env pd rows (GenAlt.initState store0)) := by
  have hinit : GenAlt.BatchInv (GenAlt.initState store0) ∧
      GenAlt.LargeInv (GenAlt.initState store0) := by
    refine ⟨⟨?_, ?_, ?_⟩, ?_, ?_⟩ <;>
      simp [GenAlt.initState, GenAlt.payloadBases]
  have hfold := foldl_inv
    (fun st => GenAlt.BatchInv st ∧ GenAlt.LargeInv st)
    (GenAlt.processRow env pd)
    (fun s p h => inv_processRow env pd s p h.1 h.2)
    rows (GenAlt.initState store0) hinit
  unfold GenAlt.batchPhase
  dsimp only
  split
  · exact hfold
  · refine inv_flushBatch env _ hfold.1.2.1 hfold.1.2.2 ?_ hfold.2.2
    intro it hit
    exact hfold.2.1 it (List.Sublist.mem hit (List.dropLast_sublist _))

/-- **C2, counterexample.** In `processor.process_csv_file` there is no
in-batch variant check: two rows whose image URLs share the base filename
`pic.jpg` are both admitted as independent entries of the same outbound
batch and sent in one vision-generation call. -/
theorem C2_counterexample :
    ((Processor.process_csv_file pEnvOk pStoreVariants).genLog.map
      (fun b => b.map (fun it => it.imageUrl))) =
      [["https://e.com/pic-300x300.jpg", "https://e.com/pic-1024x768.jpg"]] ∧
    Processor.extract_base_filename "https://e.com/pic-300x300.jpg" =
      Processor.extract_base_filename "https://e.com/pic-1024x768.jpg" := by
  decide

/-- **C2, amended.** In `generate_alt_text.process_images` the claimed
invariant holds: every payload submitted to the vision collaborator has
pairwise distinct base filenames, because a row whose base filename matches
an image already queued in the open batch is deferred as a pending variant
(and resolved by copy after the flush, never entering a payload itself).
`processor.process_csv_file` does not maintain this invariant. -/
theorem C2_amended_no_variant_pair_in_batch (env : GenAlt.Env)
    (pd : List (String × PageCtx)) (rows : List (Nat × Row)) (store0 : List Row) :
    ∀ pl ∈ (GenAlt.batchPhase env pd rows (GenAlt.initState store0)).genLog,
      (pl.map (fun it => GenAlt.extract_base_filename it.imageUrl)).Nodup := by
  intro pl hpl
  exact (inv_batchPhase env pd rows store0).1.2.2 pl hpl

/-- **C2, witness.** -/
theorem C2_witness :
    (((GenAlt.batchPhase envOkGen [] (CSVHandler.get_rows_to_process demoStoreB)
        (GenAlt.initState demoStoreB)).genLog.getD 0 []).map
      (fun it => GenAlt.extract_base_filename it.imageUrl)).Nodup :=
  C2_amended_no_variant_pair_in_batch envOkGen []
    (CSVHandler.get_rows_to_process demoStoreB) demoStoreB _ (by decide)

/-- **C5, counterexample.** A large-band row (2500px on the longer side) is
appended to the already open batch and flushed together with the earlier
normal-size row: the vision call containing it has size 2, not 1. -/
theorem C5_counterexample :
    ((GenAlt.run envLarge demoStoreLarge).genLog.map (fun b =>
       b.map (fun it => (it.imageUrl, it.sizeCategory)))) =
      [[("https://e.com/n.jpg", SizeCategory.normal),
        ("https://e.com/big.jpg", SizeCategory.large)]] := by
  decide

/-- **C5, amended.** An admitted large-band row forces an immediate flush of
the open batch with itself as the final member: in every payload submitted by
`generate_alt_text.process_images`, only the last entry can be in the large
band (so a large row is solo exactly when the open batch was empty at its
admission, and no row is ever batched after a large row). -/
theorem C5_amended_large_only_last (env : GenAlt.Env)
    (pd : List (String × PageCtx)) (rows : List (Nat × Row)) (store0 : List Row) :
    ∀ pl ∈ (GenAlt.batchPhase env pd rows (GenAlt.initState store0)).genLog,
      ∀ it ∈ pl.dropLast, it.sizeCategory ≠ SizeCategory.large := by
  intro pl hpl it hit
  exact (inv_batchPhase env pd rows store0).2.2 pl hpl it hit

/-- **C5, witness.** -/
theorem C5_witness :
    ((((GenAlt.batchPhase envLarge [] (CSVHandler.get_rows_to_process demoStoreLarge)
        (GenAlt.initState demoStoreLarge)).genLog.getD 0 []).dropLast.getD 0
        default).sizeCategory) ≠ SizeCategory.large :=
  C5_amended_large_only_last envLarge []
    (CSVHandler.get_rows_to_process demoStoreLarge) demoStoreLarge
    ((GenAlt.batchPhase envLarge [] (CSVHandler.get_rows_to_process demoStoreLarge)
        (GenAlt.initState demoStoreLarge)).genLog.getD 0 [])
    (by decide)
    (((GenAlt.batchPhase envLarge [] (CSVHandler.get_rows_to_process demoStoreLarge)
        (GenAlt.initState demoStoreLarge)).genLog.getD 0 []).dropLast.getD 0 default)
    (by decide)

/-- **C3, counterexample.** After the solo batch for
`a-300x300.jpg` fails permanently (`boom`), its base filename `a.jpg` is not
recorded in the base-filename cache (`processed_base_filenames` is only
written on success), so the later variant `a-600x600.jpg` is downloaded again
and submitted in its own vision-generation call instead of being resolved
from the cache. -/
theorem C3_counterexample :
    ((GenAlt.run envFailGen demoStoreVariants).genLog.map
      (fun b => b.map (fun it => it.imageUrl))) =
      [["https://e.com/a-300x300.jpg"], ["https://e.com/a-600x600.jpg"]] ∧
    GenAlt.extract_base_filename "https://e.com/a-300x300.jpg" =
      GenAlt.extract_base_filename "https://e.com/a-600x600.jpg" ∧
    (GenAlt.run envFailGen demoStoreVariants).downloadLog =
      ["https://e.com/a-300x300.jpg", "https://e.com/a-600x600.jpg"] := by
  decide

/-- **C9, counterexample.** With a configured ceiling of `0` USD and one
unprocessed row (estimated cost `0.00335 > 0`), the run does not terminate:
the Python gate `args.max_cost and estimated_cost > args.max_cost` treats the
falsy ceiling `0.0` as "no ceiling", and the pipeline goes on to make a
scraping call and a vision-generation call. -/
theorem C9_counterexample :
    estimate_cost (CSVHandler.get_rows_to_process demoStoreFresh).length > 0 ∧
    (GenAlt.mainModel envOkGen demoStoreFresh (some 0) false).scrapeLog.length = 1 ∧
    (GenAlt.mainModel envOkGen demoStoreFresh (some 0) false).genLog.length = 1 := by
  refine ⟨?_, by decide, by decide⟩
  have h1 : (CSVHandler.get_rows_to_process demoStoreFresh).length = 1 := by decide
  rw [h1]
  norm_num [estimate_cost]

/-- **C9, amended.** If a maximum cost is configured to a *nonzero* value and
the estimated cost of the unprocessed rows exceeds it, both pipelines
terminate before any page scraping, image download or vision-generation
call, and no row's alt text is modified beyond the restart clearing (a zero
ceiling is falsy in Python and disables the gate). -/
theorem C9_amended_cost_gate :
    (∀ (env : GenAlt.Env) (store0 : List Row) (c : ℚ) (restart : Bool),
      c ≠ 0 →
      estimate_cost (CSVHandler.get_rows_to_process
        (if restart ∧ store0.any (fun r => optTruthy r.altText) then
          store0.map (fun r => { r with altText := some "" }) else store0)).length > c →
      (GenAlt.mainModel env store0 (some c) restart).scrapeLog = [] ∧
      (GenAlt.mainModel env store0 (some c) restart).downloadLog = [] ∧
      (GenAlt.mainModel env store0 (some c) restart).genLog = [] ∧
      (GenAlt.mainModel env store0 (some c) restart).store =
        (if restart ∧ store0.any (fun r => optTruthy r.altText) then
          store0.map (fun r => { r with altText := some "" }) else store0)) ∧
    (∀ (env : Processor.Env) (store0 : List Row) (c : ℚ) (restart : Bool),
      c ≠ 0 →
      (CSVHandler.get_rows_to_process
        (if restart then store0.map (fun r => { r with altText := some "" })
         else store0)).length ≠ 0 →
      estimate_cost (CSVHandler.get_rows_to_process
        (if restart then store0.map (fun r => { r with altText := some "" })
         else store0)).length > c →
      Processor.runWithConfig env store0 (some c) restart = none) := by
  constructor
  · intro env store0 c restart hc hcost
    unfold GenAlt.mainModel
    dsimp only
    set store1 := (if restart ∧ store0.any (fun r => optTruthy r.altText) then
        store0.map (fun r => { r with altText := some "" }) else store0) with hstore1
    split
    · exact ⟨rfl, rfl, rfl, rfl⟩
    · rw [if_pos (by simp only [Bool.and_eq_true, decide_eq_true_eq]; exact ⟨hc, hcost⟩)]
      exact ⟨rfl, rfl, rfl, rfl⟩
  · intro env store0 c restart hc hrows hcost
    unfold Processor.runWithConfig
    dsimp only
    set store1 := (if restart then store0.map (fun r => { r with altText := some "" })
        else store0) with hstore1
    rw [if_neg hrows]
    rw [if_pos (by simp only [Bool.and_eq_true, decide_eq_true_eq]; exact ⟨hc, hcost⟩)]

/-- **C9, witness.** -/
theorem C9_witness :
    ((GenAlt.mainModel envOkGen demoStoreFresh (some (1 / 1000000)) false).scrapeLog = [] ∧
     (GenAlt.mainModel envOkGen demoStoreFresh (some (1 / 1000000)) false).downloadLog = [] ∧
     (GenAlt.mainModel envOkGen demoStoreFresh (some (1 / 1000000)) false).genLog = [] ∧
     (GenAlt.mainModel envOkGen demoStoreFresh (some (1 / 1000000)) false).store =
       (if false ∧ demoStoreFresh.any (fun r => optTruthy r.altText) then
         demoStoreFresh.map (fun r => { r with altText := some "" })
        else demoStoreFresh)) ∧
    Processor.runWithConfig pEnvOk pStoreVariants (some (1 / 1000000)) false = none := by
  constructor
  · refine C9_amended_cost_gate.1 envOkGen demoStoreFresh (1 / 1000000) false
      (by norm_num) ?_
    have h1 : (CSVHandler.get_rows_to_process
        (if false ∧ demoStoreFresh.any (fun r => optTruthy r.altText) then
          demoStoreFresh.map (fun r => { r with altText := some "" })
         else demoStoreFresh)).length = 1 := by decide
    rw [h1]
    norm_num [estimate_cost]
  · refine C9_amended_cost_gate.2 pEnvOk pStoreVariants (1 / 1000000) false
      (by norm_num) (by decide) ?_
    have h1 : (CSVHandler.get_rows_to_process
        (if false then pStoreVariants.map (fun r => { r with altText := some "" })
         else pStoreVariants)).length = 2 := by decide
    rw [h1]
    norm_num [estimate_cost]

theorem valid_strOfCell {alt : Option String}
    (h : Processor.is_valid_alt_text alt = true) :
    Processor.is_valid_alt_text (some (strOfCell alt)) = true := by
  cases alt with
  | none => simp [Processor.is_valid_alt_text] at h
  | some s => exact h

theorem procSimplified_valid (store : List Row) :
    ∀ e ∈ Processor.simplifiedTable store,
      Processor.is_valid_alt_text (some e.2) = true := by
  unfold Processor.simplifiedTable
  refine foldl_inv
    (fun acc : List (String × String) =>
      ∀ e ∈ acc, Processor.is_valid_alt_text (some e.2) = true)
    _ ?_ store [] (by simp)
  intro acc r hacc
  dsimp only
  split
  next hcond =>
    intro e he
    rcases List.mem_append.mp he with h | h
    · exact hacc e h
    · rw [List.mem_singleton.mp h]
      exact valid_strOfCell hcond.1
  next => exact hacc

theorem mem_insertSorted (e x : String × String) :
    ∀ l : List (String × String), x ∈ insertSorted e l ↔ x = e ∨ x ∈ l := by
  intro l
  induction l with
  | nil => simp [insertSorted]
  | cons f t ih =>
    unfold insertSorted
    split
    · simp
    · rw [List.mem_cons, ih, List.mem_cons]
      tauto

theorem mem_sortByKey (x : String × String) :
    ∀ l : List (String × String), x ∈ sortByKey l ↔ x ∈ l := by
  intro l
  induction l with
  | nil => simp [sortByKey]
  | cons f t ih =>
    unfold sortByKey
    rw [mem_insertSorted, ih, List.mem_cons]

theorem mem_dedupByKeyF (x : String × String) :
    ∀ (fuel : Nat) (l : List (String × String)),
      x ∈ dedupByKeyF fuel l → x ∈ l := by
  intro fuel
  induction fuel with
  | zero => intro l hx; simp [dedupByKeyF] at hx
  | succ n ih =>
    intro l hx
    cases l with
    | nil => simp [dedupByKeyF] at hx
    | cons e t =>
      rw [show dedupByKeyF (n + 1) (e :: t) =
        e :: dedupByKeyF n (t.filter (fun e2 => e2.1 ≠ e.1)) from rfl] at hx
      rcases List.mem_cons.mp hx with rfl | hx
      · exact List.mem_cons_self _ _
      · exact List.mem_cons_of_mem _ (List.mem_filter.mp (ih _ hx)).1

theorem gatSimplified_valid (store : List Row) :
    ∀ e ∈ GenAlt.simplifiedTable store,
      GenAlt.is_valid_alt_text (some e.2) = true := by
  intro e he
  unfold GenAlt.simplifiedTable at he
  rw [mem_sortByKey] at he
  have he' := mem_dedupByKeyF e _ _ he
  rcases List.mem_map.mp he' with ⟨r, hr, rfl⟩
  have hv := (List.mem_filter.mp hr).2
  cases halt : r.altText with
  | none => rw [halt] at hv; simp [GenAlt.is_valid_alt_text] at hv
  | some s =>
    rw [halt] at hv
    simpa [strOfCell, halt] using hv

theorem gatFilename_valid (store : List Row) :
    ∀ e ∈ GenAlt.filenameTable store,
      GenAlt.is_valid_alt_text (some e.2) = true := by
  intro e he
  unfold GenAlt.filenameTable at he
  rw [mem_sortByKey] at he
  have he' := mem_dedupByKeyF e _ _ he
  rcases List.mem_map.mp he' with ⟨r, hr, rfl⟩
  have hv := (List.mem_filter.mp hr).2
  cases halt : r.altText with
  | none => rw [halt] at hv; simp [GenAlt.is_valid_alt_text] at hv
  | some s =>
    rw [halt] at hv
    simpa [strOfCell, halt] using hv

/-- **C7, counterexample.** The claim's exclusion vocabulary does not match
the code: an alt text containing "too large" passes
`processor.is_valid_alt_text` (whose patterns are
`['skip', 'too small', 'download error', 'error:', 'icon', 'thumbnail',
'avatar']` — no "too large", and "error" only with a colon), so the row
skipped as too large appears in **both** deduplicated output tables. -/
theorem C7_counterexample :
    Processor.is_valid_alt_text (some "Image too large (9000x9000 pixels)") = true ∧
    substrOf "too large" (lowerStr "Image too large (9000x9000 pixels)") = true ∧
    ("https://e.com/big.jpg", "Image too large (9000x9000 pixels)") ∈
      Processor.simplifiedTable demoStoreTables ∧
    ("big.jpg", "Image too large (9000x9000 pixels)") ∈
      Processor.filenameTable demoStoreTables := by
  decide

/-- **C7, amended.** The exclusion vocabulary is
`['skip', 'too small', 'download error', 'error:', 'icon', 'thumbnail',
'avatar']` in `processor.py` and `['skip', 'too small']` in
`generate_alt_text.py` (case-insensitive substrings); "too large" and bare
"error" are not excluded. A row whose alt text contains "too small"
(case-insensitively) is present in the full row table but excluded from the
URL-keyed and filename-keyed deduplicated tables of both pipelines: no entry
of any of the four tables carries such an alt text. -/
theorem C7_amended_skip_vocab (store : List Row) (r : Row) (a : String)
    (hr : r ∈ store) (halt : r.altText = some a)
    (hsub : substrOf "too small" (lowerStr a) = true) :
    (∀ e ∈ Processor.simplifiedTable store, e.2 ≠ a) ∧
    (∀ e ∈ Processor.filenameTable store, e.2 ≠ a) ∧
    (∀ e ∈ GenAlt.simplifiedTable store, e.2 ≠ a) ∧
    (∀ e ∈ GenAlt.filenameTable store, e.2 ≠ a) ∧
    r ∈ Processor.originalTable store := by
  have hinvP : Processor.is_valid_alt_text (some a) = false := by
    by_cases ha : a = ""
    · simp [Processor.is_valid_alt_text, ha]
    · simp [Processor.is_valid_alt_text, ha, Processor.exclude_patterns, hsub]
  have hinvG : GenAlt.is_valid_alt_text (some a) = false := by
    by_cases ha : a = ""
    · simp [GenAlt.is_valid_alt_text, ha]
    · simp [GenAlt.is_valid_alt_text, ha, GenAlt.exclude_patterns, hsub]
  refine ⟨?_, ?_, ?_, ?_, hr⟩
  · intro e he hea
    have := procSimplified_valid store e he
    rw [hea, hinvP] at this
    exact absurd this (by simp)
  · intro e he hea
    unfold Processor.filenameTable at he
    rcases List.mem_map.mp he with ⟨e', he', rfl⟩
    have := procSimplified_valid store e' he'
    rw [show e'.2 = a from hea, hinvP] at this
    exact absurd this (by simp)
  · intro e he hea
    have := gatSimplified_valid store e he
    rw [hea, hinvG] at this
    exact absurd this (by simp)
  · intro e he hea
    have := gatFilename_valid store e he
    rw [hea, hinvG] at this
    exact absurd this (by simp)

/-- **C7, witness.** -/
theorem C7_witness :
    ("https://e.com/x.jpg", "Skipped: Too small (50x50)") ∉
      Processor.simplifiedTable demoStoreTables ∧
    ("x.jpg", "Skipped: Too small (50x50)") ∉
      Processor.filenameTable demoStoreTables := by
  have h := C7_amended_skip_vocab demoStoreTables
    ({ mkFreshRow "p" "https://e.com/tiny.jpg" with
        altText := some "Skipped: Too small (50x50)" })
    "Skipped: Too small (50x50)" (by decide) rfl (by decide)
  exact ⟨fun hm => h.1 _ hm rfl, fun hm => h.2.1 _ hm rfl⟩

theorem updateAt_ge (f : Row → Row) :
    ∀ (i : Nat) (s : List Row), s.length ≤ i → updateAt f i s = s := by
  intro i
  induction i with
  | zero =>
    intro s hs
    rw [Nat.le_zero, List.length_eq_zero] at hs
    subst hs
    rfl
  | succ n ih =>
    intro s hs
    cases s with
    | nil => rfl
    | cons r rs =>
      rw [show updateAt f (n + 1) (r :: rs) = r :: updateAt f n rs from rfl]
      rw [ih rs (by simpa using hs)]

theorem filter_enumFrom_updateAt (f : Row → Row) (p : String)
    (hf : ∀ r, (f r).source = r.source) :
    ∀ (s : List Row) (n i : Nat), (s.getD i default).source ≠ p →
      (List.enumFrom n (updateAt f i s)).filter (fun q => q.2.source == p) =
      (List.enumFrom n s).filter (fun q => q.2.source == p) := by
  intro s
  induction s with
  | nil => intro n i _; cases i <;> rfl
  | cons r t ih =>
    intro n i hsrc
    cases i with
    | zero =>
      rw [show updateAt f 0 (r :: t) = f r :: t from rfl]
      rw [show List.enumFrom n (f r :: t) = (n, f r) :: List.enumFrom (n + 1) t from rfl]
      rw [show List.enumFrom n (r :: t) = (n, r) :: List.enumFrom (n + 1) t from rfl]
      rw [List.filter_cons, List.filter_cons]
      have h1 : ((f r).source == p) = false := by
        rw [hf r]
        simpa using (by simpa using hsrc : r.source ≠ p)
      have h2 : (r.source == p) = false := by
        simpa using (by simpa using hsrc : r.source ≠ p)
      simp only [h1, h2, Bool.false_eq_true, if_false]
    | succ m =>
      rw [show updateAt f (m + 1) (r :: t) = r :: updateAt f m t from rfl]
      rw [show List.enumFrom n (r :: updateAt f m t) =
        (n, r) :: List.enumFrom (n + 1) (updateAt f m t) from rfl]
      rw [show List.enumFrom n (r :: t) = (n, r) :: List.enumFrom (n + 1) t from rfl]
      rw [List.filter_cons, List.filter_cons]
      rw [ih (n + 1) m (by simpa using hsrc)]

theorem getD_updateAt_source (f : Row → Row) (hf : ∀ r, (f r).source = r.source)
    (i j : Nat) (s : List Row) :
    ((updateAt f i s).getD j default).source = (s.getD j default).source := by
  by_cases hij : i = j
  · subst hij
    by_cases hlen : i < s.length
    · rw [getD_updateAt_self f default i s hlen, hf]
    · rw [updateAt_ge f i s (by omega)]
  · rw [getD_updateAt_ne f default i j hij s]

theorem images_foldl_updateAt (q p : String) (hqp : q ≠ p)
    (f : Row → Row) (hf : ∀ r, (f r).source = r.source) (base : List Row) :
    ∀ (indices : List Nat), (∀ i ∈ indices, (base.getD i default).source = q) →
    ∀ (s : List Row),
      (∀ j, (s.getD j default).source = (base.getD j default).source) →
      CSVHandler.get_images_for_page s p = CSVHandler.get_images_for_page base p →
      (∀ j, ((indices.foldl (fun s i => updateAt f i s) s).getD j default).source
          = (base.getD j default).source) ∧
      CSVHandler.get_images_for_page (indices.foldl (fun s i => updateAt f i s) s) p
        = CSVHandler.get_images_for_page base p := by
  intro indices
  induction indices with
  | nil => intro _ s hsrc himg; exact ⟨hsrc, himg⟩
  | cons i t ih =>
    intro h s hsrc himg
    rw [List.foldl_cons]
    apply ih (fun j hj => h j (List.mem_cons_of_mem _ hj))
    · intro j
      rw [getD_updateAt_source f hf i j s, hsrc j]
    · have hi : (s.getD i default).source ≠ p := by
        rw [hsrc i, h i (List.mem_cons_self _ _)]
        exact hqp
      calc CSVHandler.get_images_for_page (updateAt f i s) p
          = CSVHandler.get_images_for_page s p :=
            filter_enumFrom_updateAt f p hf s 0 i hi
        _ = CSVHandler.get_images_for_page base p := himg

theorem sources_foldl_updateAt (f : Row → Row) (hf : ∀ r, (f r).source = r.source)
    (base : List Row) :
    ∀ (indices : List Nat) (s : List Row),
      (∀ j, (s.getD j default).source = (base.getD j default).source) →
      ∀ j, ((indices.foldl (fun s i => updateAt f i s) s).getD j default).source
        = (base.getD j default).source := by
  intro indices
  induction indices with
  | nil => intro s hsrc; exact hsrc
  | cons i t ih =>
    intro s hsrc
    rw [List.foldl_cons]
    exact ih _ (fun j => by rw [getD_updateAt_source f hf i j s, hsrc j])

theorem gat_scrape_aux (env : GenAlt.Env) (store0 : List Row)
    (hforb : GenAlt.NoForbidden env) :
    ∀ (pages : List String) (ss : GenAlt.ScrapeState),
      pages.Nodup →
      ss.stopped = none →
      (∀ j, (ss.store.getD j default).source = (store0.getD j default).source) →
      (∀ p ∈ pages, CSVHandler.get_images_for_page ss.store p =
        CSVHandler.get_images_for_page store0 p) →
      (pages.foldl (GenAlt.scrapePage env) ss).scrapeLog.map Prod.fst =
        ss.scrapeLog.map Prod.fst ++
          pages.filter (fun p => !(GenAlt.pageAlreadyScraped store0 p)) := by
  intro pages
  induction pages with
  | nil => intro ss _ h3 h1 h2; simp
  | cons q rest ih =>
    intro ss hnd h3 h1 h2
    have hqrest : q ∉ rest := (List.nodup_cons.mp hnd).1
    have hndrest : rest.Nodup := (List.nodup_cons.mp hnd).2
    rw [List.foldl_cons, List.filter_cons]
    have himgq := h2 q (List.mem_cons_self _ _)
    have hnotstopped : ss.stopped.isSome = false := by rw [h3]; rfl
    have hscraped : GenAlt.pageAlreadyScraped store0 q =
        (match (CSVHandler.get_images_for_page ss.store q).head? with
         | some r => r.2.titleTag.isSome
         | none => true) := by
      unfold GenAlt.pageAlreadyScraped
      rw [← himgq]
    cases hh : (CSVHandler.get_images_for_page ss.store q).head? with
    | none =>
      have hstep : GenAlt.scrapePage env ss q = ss := by
        unfold GenAlt.scrapePage
        rw [if_neg (by rw [hnotstopped]; simp)]
        simp only [hh]
      rw [hstep]
      have hsk : GenAlt.pageAlreadyScraped store0 q = true := by rw [hscraped, hh]
      simp only [hsk, Bool.not_true, Bool.false_eq_true, if_false]
      exact ih ss hndrest h3 h1 (fun p hp => h2 p (List.mem_cons_of_mem _ hp))
    | some ir =>
      obtain ⟨i0, fr⟩ := ir
      cases htit : fr.titleTag.isSome with
      | true =>
        have hstep : GenAlt.scrapePage env ss q =
            { ss with pageData := (q,
              ({ title := strOfCell fr.titleTag, h1 := strOfCell fr.h1Tag,
                 pageError := none,
                 images := ((CSVHandler.get_images_for_page ss.store q).map (fun p =>
                   (p.2.dest,
                    ({ adjacentText := strOfCell p.2.adjacentText,
                       imgError := none } : ImgCtx)))).reverse } : PageCtx)) ::
                ss.pageData } := by
          unfold GenAlt.scrapePage
          rw [if_neg (by rw [hnotstopped]; simp)]
          simp only [hh, htit, if_true]
        rw [hstep]
        have hsk : GenAlt.pageAlreadyScraped store0 q = true := by
          rw [hscraped, hh]; exact htit
        simp only [hsk, Bool.not_true, Bool.false_eq_true, if_false]
        exact ih _ hndrest h3 h1 (fun p hp => h2 p (List.mem_cons_of_mem _ hp))
      | false =>
        have hsk : GenAlt.pageAlreadyScraped store0 q = false := by
          rw [hscraped, hh]; exact htit
        have hidx : ∀ i ∈ (CSVHandler.get_images_for_page ss.store q).map
            (fun p => p.1), (store0.getD i default).source = q := by
          intro i hi
          have hmm := (@mem_fst_filter_enumFrom (fun r => r.source == q)
            ss.store 0 i).mp hi
          rcases hmm with ⟨k, hk, rfl, hP⟩
          have hsq : (ss.store.getD (0 + k) default).source = q := by
            simpa using hP
          rw [← h1 (0 + k)]
          exact hsq
        cases hsc : env.scrape q ((CSVHandler.get_images_for_page ss.store q).map
            (fun p => p.2.dest)) with
        | forbidden m => exact absurd hsc (hforb q _ m)
        | ok result =>
          have hstep : GenAlt.scrapePage env ss q =
              { ss with
                scrapeLog := ss.scrapeLog ++
                  [(q, (CSVHandler.get_images_for_page ss.store q).map
                    (fun p => p.2.dest))]
                pageData := (q, result) :: ss.pageData
                store := ((CSVHandler.get_images_for_page ss.store q).map
                    (fun p => p.1)).foldl (fun s i =>
                  updateAt (fun r =>
                    { r with titleTag := some result.title,
                             h1Tag := some result.h1 }) i s) ss.store } := by
            unfold GenAlt.scrapePage
            rw [if_neg (by rw [hnotstopped]; simp)]
            simp only [hh, htit, Bool.false_eq_true, if_false, hsc]
          rw [hstep]
          simp only [hsk, Bool.not_false, if_true]
          have hrec := ih { ss with
                scrapeLog := ss.scrapeLog ++
                  [(q, (CSVHandler.get_images_for_page ss.store q).map
                    (fun p => p.2.dest))]
                pageData := (q, result) :: ss.pageData
                store := ((CSVHandler.get_images_for_page ss.store q).map
                    (fun p => p.1)).foldl (fun s i =>
                  updateAt (fun r =>
                    { r with titleTag := some result.title,
                             h1Tag := some result.h1 }) i s) ss.store }
            hndrest h3
            (fun j => by
              dsimp only
              exact sources_foldl_updateAt
                (fun r => { r with titleTag := some result.title, h1Tag := some result.h1 })
                (fun r => rfl) store0 _ ss.store h1 j)
            (fun p hp => by
              dsimp only
              have hqp : q ≠ p := fun h => hqrest (h ▸ hp)
              exact (images_foldl_updateAt q p hqp
                (fun r => { r with titleTag := some result.title, h1Tag := some result.h1 })
                (fun r => rfl) store0 _ hidx ss.store h1
                (h2 p (List.mem_cons_of_mem _ hp))).2)
          rw [hrec]
          simp
        | exc m =>
          have hstep : GenAlt.scrapePage env ss q =
              { ss with
                scrapeLog := ss.scrapeLog ++
                  [(q, (CSVHandler.get_images_for_page ss.store q).map
                    (fun p => p.2.dest))]
                pageData := (q,
                  ({ title := "", h1 := "", pageError := some m,
                     images := ((CSVHandler.get_images_for_page ss.store q).map
                       (fun p => p.2.dest)).map (fun u =>
                         (u, ({ adjacentText := "", imgError := some m } : ImgCtx))) }
                    : PageCtx)) :: ss.pageData } := by
            unfold GenAlt.scrapePage
            rw [if_neg (by rw [hnotstopped]; simp)]
            simp only [hh, htit, Bool.false_eq_true, if_false, hsc]
          rw [hstep]
          simp only [hsk, Bool.not_false, if_true]
          have hrec := ih { ss with
                scrapeLog := ss.scrapeLog ++
                  [(q, (CSVHandler.get_images_for_page ss.store q).map
                    (fun p => p.2.dest))]
                pageData := (q,
                  ({ title := "", h1 := "", pageError := some m,
                     images := ((CSVHandler.get_images_for_page ss.store q).map
                       (fun p => p.2.dest)).map (fun u =>
                         (u, ({ adjacentText := "", imgError := some m } : ImgCtx))) }
                    : PageCtx)) :: ss.pageData }
            hndrest h3 h1 (fun p hp => h2 p (List.mem_cons_of_mem _ hp))
          rw [hrec]
          simp

theorem proc_scrape_aux (env : Processor.Env) (hforb : Processor.NoForbiddenP env) :
    ∀ (pages : List String) (ss : Processor.PState),
      ss.aborted = none →
      ((pages.foldl (Processor.scrapePage env) ss).scrapeLog =
        ss.scrapeLog ++ pages ∧
       (pages.foldl (Processor.scrapePage env) ss).aborted = none) := by
  intro pages
  induction pages with
  | nil => intro ss h; simpa using h
  | cons q rest ih =>
    intro ss h
    rw [List.foldl_cons]
    have hstep : (Processor.scrapePage env ss q).scrapeLog = ss.scrapeLog ++ [q] ∧
        (Processor.scrapePage env ss q).aborted = none := by
      unfold Processor.scrapePage
      rw [if_neg (by rw [h]; simp)]
      cases hsc : env.scrape q with
      | forbidden m => exact absurd hsc (hforb q m)
      | ok res =>
        simp only [hsc]
        exact ⟨trivial, h⟩
      | exc m =>
        simp only [hsc]
        exact ⟨trivial, h⟩
    obtain ⟨hrec1, hrec2⟩ := ih (Processor.scrapePage env ss q) hstep.2
    rw [hrec1, hstep.1]
    refine ⟨by simp, hrec2⟩

/-- **C8, counterexample.** `processor.process_csv_file` makes a scraping
call for every page with an unprocessed row, even when the page's first row
already carries a non-null stored title. -/
theorem C8_counterexample :
    (pStoreScraped.getD 0 default).titleTag = some "Stored title" ∧
    altIsEmpty (pStoreScraped.getD 0 default).altText = true ∧
    (Processor.process_csv_file pEnvOk pStoreScraped).scrapeLog =
      ["https://e.com/page"] := by
  decide

/-- **C8, amended.** In `generate_alt_text.process_images` the reuse rule
holds: the pages scraped are exactly the unique pages of the unprocessed
rows whose first row's `title tag` is null (all other pages reuse the stored
title, H1 and adjacent text with no scraping call). In
`processor.process_csv_file` the scraping loop calls the scraper for every
unique page of the unprocessed rows, regardless of any stored title. -/
theorem C8_amended_scrape_reuse :
    (∀ (env : GenAlt.Env) (store0 : List Row), GenAlt.NoForbidden env →
      (GenAlt.scrapePhase env store0).scrapeLog.map Prod.fst =
        (CSVHandler.get_unique_pages store0).filter
          (fun p => !(GenAlt.pageAlreadyScraped store0 p))) ∧
    (∀ (env : Processor.Env) (store0 : List Row), Processor.NoForbiddenP env →
      ((CSVHandler.get_unique_pages store0).foldl (Processor.scrapePage env)
        (Processor.initState store0)).scrapeLog =
        CSVHandler.get_unique_pages store0) := by
  constructor
  · intro env store0 hforb
    unfold GenAlt.scrapePhase
    have h := gat_scrape_aux env store0 hforb (CSVHandler.get_unique_pages store0)
      { store := store0, pageData := [], scrapeLog := [], stopped := none }
      (nodup_uniqueFirst _) rfl (fun j => rfl) (fun p _ => rfl)
    simpa using h
  · intro env store0 hforb
    exact (proc_scrape_aux env hforb (CSVHandler.get_unique_pages store0)
      (Processor.initState store0) rfl).1.trans (by simp [Processor.initState])

/-- **C8, witness.** -/
theorem C8_witness :
    (GenAlt.scrapePhase envOkGen demoStoreFresh).scrapeLog.map Prod.fst =
      (CSVHandler.get_unique_pages demoStoreFresh).filter
        (fun p => !(GenAlt.pageAlreadyScraped demoStoreFresh p)) :=
  C8_amended_scrape_reuse.1 envOkGen demoStoreFresh
    (fun p urls m h => ScrapeOutcome.noConfusion h)

theorem lookup_cons_ne {β : Type _} {k x : String} (v : β) (l : List (String × β))
    (h : k ≠ x) : List.lookup x ((k, v) :: l) = List.lookup x l := by
  have hxk : (x == k) = false := by
    simp only [beq_eq_false_iff_ne, ne_eq]
    exact fun hh => h hh.symm
  simp [List.lookup_cons, hxk]

theorem process_batch_cache_lookup (env : GenAlt.Env) (b : List GenAlt.BatchItem)
    (i : List Nat) (st : GenAlt.PState) (x bs : String)
    (hx : ∀ it ∈ b, it.imageUrl ≠ x)
    (hb : ∀ it ∈ b, GenAlt.extract_base_filename it.imageUrl ≠ bs) :
    (GenAlt.process_batch env b i st).processedImages.lookup x =
      st.processedImages.lookup x ∧
    (GenAlt.process_batch env b i st).processedBase.lookup bs =
      st.processedBase.lookup bs := by
  unfold GenAlt.process_batch
  split
  next rs heq =>
    dsimp only
    constructor
    · refine foldl_proj_eq (fun s : GenAlt.PState => s.processedImages.lookup x)
        (GenAlt.applyGenResult b i) (fun s r => ?_) rs _
      unfold GenAlt.applyGenResult
      split
      next => rfl
      next item idx hfind =>
        have hitem : item ∈ b :=
          (List.of_mem_zip (List.mem_of_find?_eq_some hfind)).1
        have hkey : item.imageUrl = r.imageUrl := by
          have := List.find?_some hfind
          simpa using this
        have hne : r.imageUrl ≠ x := by rw [← hkey]; exact hx _ hitem
        split
        · exact lookup_cons_ne _ _ hne
        · split
          · dsimp only
            exact lookup_cons_ne _ _ hne
          · exact lookup_cons_ne _ _ hne
    · refine foldl_proj_eq (fun s : GenAlt.PState => s.processedBase.lookup bs)
        (GenAlt.applyGenResult b i) (fun s r => ?_) rs _
      unfold GenAlt.applyGenResult
      split
      next => rfl
      next item idx hfind =>
        have hitem : item ∈ b :=
          (List.of_mem_zip (List.mem_of_find?_eq_some hfind)).1
        have hkey : item.imageUrl = r.imageUrl := by
          have := List.find?_some hfind
          simpa using this
        have hne : GenAlt.extract_base_filename r.imageUrl ≠ bs := by
          rw [← hkey]; exact hb _ hitem
        split
        · rfl
        · split
          · dsimp only
            exact lookup_cons_ne _ _ hne
          · rfl
  next msg heq =>
    dsimp only
    constructor
    · unfold GenAlt.markBatchFailed
      refine foldl_proj_eq (fun s : GenAlt.PState => s.processedImages.lookup x)
        _ (fun s q => ?_) _ _
      dsimp only
      split
      next it hget =>
        have hitem : it ∈ b := List.get?_mem hget
        exact lookup_cons_ne _ _ (hx _ hitem)
      next => rfl
    · unfold GenAlt.markBatchFailed
      refine foldl_proj_eq (fun s : GenAlt.PState => s.processedBase.lookup bs)
        _ (fun s q => ?_) _ _
      dsimp only
      split
      next => rfl
      next => rfl

theorem flush_cache_lookup (env : GenAlt.Env) (st : GenAlt.PState)
    (hpending : st.pending = []) (x bs : String)
    (hx : ∀ it ∈ st.batch, it.imageUrl ≠ x)
    (hb : ∀ it ∈ st.batch, GenAlt.extract_base_filename it.imageUrl ≠ bs) :
    (GenAlt.flushBatch env st).processedImages.lookup x =
      st.processedImages.lookup x ∧
    (GenAlt.flushBatch env st).processedBase.lookup bs =
      st.processedBase.lookup bs := by
  have hpb := process_batch_sched env st.batch st.batchIndices st
  have hpc := process_batch_cache_lookup env st.batch st.batchIndices st x bs hx hb
  unfold GenAlt.flushBatch
  dsimp only
  rw [hpb.2.2.2.1, hpending, List.foldl_nil]
  exact hpc

theorem sizeInv_flushBatch (env : GenAlt.Env) (st : GenAlt.PState)
    (rest : List (Nat × Row)) (k : Nat)
    (hpend : st.pending = [])
    (hlog : st.genLog.map List.length =
      List.replicate (k / BATCH_SIZE) BATCH_SIZE)
    (hbl : st.batch.length = k % BATCH_SIZE + 1)
    (hfull : k % BATCH_SIZE + 1 = BATCH_SIZE)
    (hI4 : ∀ q ∈ rest, st.processedImages.lookup q.2.dest = none)
    (hI5 : ∀ q ∈ rest,
      st.processedBase.lookup (GenAlt.extract_base_filename q.2.dest) = none)
    (hI7 : ∀ q ∈ rest, ∀ it ∈ st.batch,
      GenAlt.extract_base_filename it.imageUrl ≠
        GenAlt.extract_base_filename q.2.dest) :
    GenAlt.SizeInv (GenAlt.flushBatch env st) rest (k + 1) := by
  obtain ⟨hb0, hi0, hbb0, hp0, hg0⟩ := flushBatch_sched env st
  have hB : BATCH_SIZE = 8 := rfl
  rw [hB] at hfull
  refine ⟨?_, ?_, hp0, ?_, ?_, ?_, ?_⟩
  · rw [hg0, List.map_append, hlog]
    have hm : List.map List.length [st.batch] = [BATCH_SIZE] := by
      simp [hbl, hB, hfull]
    rw [hm]
    rw [hB]
    rw [show (k + 1) / 8 = k / 8 + 1 by omega]
    rw [List.replicate_succ']
  · rw [hb0, hB]
    simp only [List.length_nil]
    omega
  · intro q hq
    have hx : ∀ it ∈ st.batch, it.imageUrl ≠ q.2.dest := by
      intro it hit heq
      exact hI7 q hq it hit (by rw [heq])
    rw [(flush_cache_lookup env st hpend q.2.dest
      (GenAlt.extract_base_filename q.2.dest) hx (hI7 q hq)).1]
    exact hI4 q hq
  · intro q hq
    have hx : ∀ it ∈ st.batch, it.imageUrl ≠ q.2.dest := by
      intro it hit heq
      exact hI7 q hq it hit (by rw [heq])
    rw [(flush_cache_lookup env st hpend q.2.dest
      (GenAlt.extract_base_filename q.2.dest) hx (hI7 q hq)).2]
    exact hI5 q hq
  · intro q hq
    rw [hbb0, List.lookup_nil]
  · intro q hq it hit
    rw [hb0] at hit
    exact absurd hit (List.not_mem_nil it)

theorem sizeInv_admitRow (env : GenAlt.Env) (pd : List (String × PageCtx))
    (st : GenAlt.PState) (idx : Nat) (row : Row) (rest : List (Nat × Row)) (k : Nat)
    (hadm : GenAlt.admitsNormal env pd (idx, row) = true)
    (hfresh : ∀ q ∈ rest,
      GenAlt.extract_base_filename row.dest ≠
        GenAlt.extract_base_filename q.2.dest)
    (hINV : GenAlt.SizeInv st ((idx, row) :: rest) k) :
    GenAlt.SizeInv (GenAlt.admitRow env pd st idx row
      (GenAlt.extract_base_filename row.dest)) rest (k + 1) := by
  obtain ⟨I1, I2, I3, I4, I5, I6, I7⟩ := hINV
  unfold GenAlt.admitsNormal at hadm
  dsimp only at hadm
  simp only [Bool.and_eq_true, beq_iff_eq, Bool.not_eq_true'] at hadm
  obtain ⟨⟨⟨⟨hds, hfet⟩, henc⟩, herr1⟩, herr2⟩ := hadm
  cases hfetch : env.fetch row.dest with
  | err =>
      rw [hfetch] at hfet
      exact absurd hfet (by simp)
  | ok bytes w h =>
      rw [hfetch] at hfet
      simp only [Bool.and_eq_true, decide_eq_true_eq] at hfet
      obtain ⟨hbytes, hdim⟩ := hfet
      have heval : download_image (env.fetch row.dest) row.dest =
          (some row.dest, some SizeCategory.normal, some (w, h)) := by
        rw [hfetch]
        simp only [download_image]
        rw [if_neg (Nat.not_lt.mpr hbytes),
            if_neg (Nat.not_lt.mpr (le_trans hdim (by norm_num))),
            if_neg (Nat.not_lt.mpr hdim)]
      have hcatn : (download_image (env.fetch row.dest) row.dest).2.1.getD
          SizeCategory.normal = SizeCategory.normal := by
        rw [heval]
        rfl
      unfold GenAlt.admitRow
      dsimp only
      split
      · next hcond =>
          rw [hds] at hcond
          simp at hcond
      · split
        · next hcond =>
            rw [herr1, herr2] at hcond
            simp at hcond
        · split
          · next hcond =>
              rw [heval] at hcond
              simp at hcond
          · split
            · next hcond =>
                rw [heval] at hcond
                simp at hcond
            · split
              · next hcond =>
                  rw [hfetch] at hcond
                  simp only [] at hcond
                  exact absurd hcond (Nat.not_lt.mpr hbytes)
              · split
                · next hencnone =>
                    rw [hencnone] at henc
                    simp at henc
                · next b64 hb64 =>
                    split
                    · next hcond =>
                        have hk8 : k % BATCH_SIZE + 1 = BATCH_SIZE := by
                          rcases hcond with hl | hl
                          · simp only [List.length_append,
                              List.length_singleton] at hl
                            rw [I2] at hl
                            have hlt : k % BATCH_SIZE < BATCH_SIZE :=
                              Nat.mod_lt _ (by decide)
                            omega
                          · rw [hcatn] at hl
                            exact absurd hl (by decide)
                        refine sizeInv_flushBatch env _ rest k I3 I1 ?_ hk8
                          ?_ ?_ ?_
                        · simp [I2]
                        · intro q hq
                          exact I4 q (List.mem_cons_of_mem _ hq)
                        · intro q hq
                          exact I5 q (List.mem_cons_of_mem _ hq)
                        · intro q hq it hit
                          rcases List.mem_append.mp hit with hold | hnew
                          · exact I7 q (List.mem_cons_of_mem _ hq) it hold
                          · rw [List.mem_singleton.mp hnew]
                            exact hfresh q hq
                    · next hcond =>
                        have hlt : ¬ (st.batch.length + 1 ≥ BATCH_SIZE) := by
                          intro hge
                          exact hcond (Or.inl (by
                            simp only [List.length_append,
                              List.length_singleton]
                            exact hge))
                        rw [I2] at hlt
                        have hB : BATCH_SIZE = 8 := rfl
                        rw [hB] at hlt
                        have hdiv : (k + 1) / BATCH_SIZE = k / BATCH_SIZE := by
                          rw [hB]; omega
                        have hmod : (k + 1) % BATCH_SIZE =
                            k % BATCH_SIZE + 1 := by
                          rw [hB]; omega
                        refine ⟨?_, ?_, I3, ?_, ?_, ?_, ?_⟩
                        · rw [hdiv]
                          exact I1
                        · rw [hmod]
                          simp [I2]
                        · intro q hq
                          exact I4 q (List.mem_cons_of_mem _ hq)
                        · intro q hq
                          exact I5 q (List.mem_cons_of_mem _ hq)
                        · intro q hq
                          exact (lookup_cons_ne _ _ (hfresh q hq)).trans
                            (I6 q (List.mem_cons_of_mem _ hq))
                        · intro q hq it hit
                          rcases List.mem_append.mp hit with hold | hnew
                          · exact I7 q (List.mem_cons_of_mem _ hq) it hold
                          · rw [List.mem_singleton.mp hnew]
                            exact hfresh q hq

theorem sizeInv_processRow (env : GenAlt.Env) (pd : List (String × PageCtx))
    (st : GenAlt.PState) (p : Nat × Row) (rest : List (Nat × Row)) (k : Nat)
    (hadm : GenAlt.admitsNormal env pd p = true)
    (hfresh : ∀ q ∈ rest,
      GenAlt.extract_base_filename p.2.dest ≠
        GenAlt.extract_base_filename q.2.dest)
    (hINV : GenAlt.SizeInv st (p :: rest) k) :
    GenAlt.SizeInv (GenAlt.processRow env pd st p) rest (k + 1) := by
  obtain ⟨idx, row⟩ := p
  obtain ⟨I1, I2, I3, I4, I5, I6, I7⟩ := hINV
  have h4 : st.processedImages.lookup row.dest = none :=
    I4 _ (List.mem_cons_self _ _)
  have h5 : st.processedBase.lookup (GenAlt.extract_base_filename row.dest) =
      none := I5 _ (List.mem_cons_self _ _)
  have h6 : st.batchBase.lookup (GenAlt.extract_base_filename row.dest) =
      none := I6 _ (List.mem_cons_self _ _)
  unfold GenAlt.processRow
  dsimp only
  split
  · next alt heq =>
      rw [h4] at heq
      simp at heq
  · next heq =>
      rw [h4] at heq
      simp at heq
  · split
    · next alt heq =>
        rw [h5] at heq
        simp at heq
    · next heq =>
        rw [h5] at heq
        simp at heq
    · split
      · next hcond =>
          rw [h6] at hcond
          simp at hcond
      · exact sizeInv_admitRow env pd st idx row rest k hadm hfresh
          ⟨I1, I2, I3, I4, I5, I6, I7⟩

theorem gat_sizes_aux (env : GenAlt.Env) (pd : List (String × PageCtx))
    (rows : List (Nat × Row)) :
    ∀ (st : GenAlt.PState) (k : Nat),
      (rows.map (fun q => GenAlt.extract_base_filename q.2.dest)).Nodup →
      (∀ q ∈ rows, GenAlt.admitsNormal env pd q = true) →
      GenAlt.SizeInv st rows k →
      GenAlt.SizeInv (rows.foldl (GenAlt.processRow env pd) st) []
        (k + rows.length) := by
  induction rows with
  | nil =>
      intro st k _ _ hinv
      simpa using hinv
  | cons p rest ih =>
      intro st k hnd hadm hinv
      rw [List.foldl_cons]
      rw [List.map_cons, List.nodup_cons] at hnd
      obtain ⟨hp, hnd'⟩ := hnd
      have hfresh : ∀ q ∈ rest,
          GenAlt.extract_base_filename p.2.dest ≠
            GenAlt.extract_base_filename q.2.dest := by
        intro q hq heq
        apply hp
        rw [heq]
        exact List.mem_map_of_mem _ hq
      have hstep := sizeInv_processRow env pd st p rest k
        (hadm p (List.mem_cons_self _ _)) hfresh hinv
      have hrec := ih (GenAlt.processRow env pd st p) (k + 1) hnd'
        (fun q hq => hadm q (List.mem_cons_of_mem _ hq)) hstep
      have harith : k + 1 + rest.length = k + (p :: rest).length := by
        simp only [List.length_cons]
        omega
      rw [harith] at hrec
      exact hrec

theorem gat_batch_sizes (env : GenAlt.Env) (pd : List (String × PageCtx))
    (rows : List (Nat × Row)) (store0 : List Row)
    (hnd : (rows.map (fun q => GenAlt.extract_base_filename q.2.dest)).Nodup)
    (hadm : ∀ q ∈ rows, GenAlt.admitsNormal env pd q = true) :
    (GenAlt.batchPhase env pd rows
      (GenAlt.initState store0)).genLog.map List.length =
      GenAlt.callSizes rows.length := by
  have h0 : GenAlt.SizeInv (GenAlt.initState store0) rows 0 := by
    refine ⟨rfl, rfl, rfl, ?_, ?_, ?_, ?_⟩
    · intro q hq
      rfl
    · intro q hq
      rfl
    · intro q hq
      rfl
    · intro q hq it hit
      exact absurd hit (List.not_mem_nil it)
  have h := gat_sizes_aux env pd rows (GenAlt.initState store0) 0 hnd hadm h0
  rw [Nat.zero_add] at h
  obtain ⟨hlog, hblen, -, -, -, -, -⟩ := h
  unfold GenAlt.batchPhase
  dsimp only
  split
  · next hempty =>
      have hnil : (rows.foldl (GenAlt.processRow env pd)
          (GenAlt.initState store0)).batch = [] := by
        rcases hb : (rows.foldl (GenAlt.processRow env pd)
            (GenAlt.initState store0)).batch with _ | ⟨a, l⟩
        · rfl
        · rw [hb] at hempty
          simp [List.isEmpty] at hempty
      have hz : rows.length % BATCH_SIZE = 0 := by
        rw [← hblen, hnil]
        rfl
      rw [hlog]
      unfold GenAlt.callSizes
      rw [if_pos hz, List.append_nil]
  · next hne =>
      have hsched := (flushBatch_sched env (rows.foldl (GenAlt.processRow env pd)
        (GenAlt.initState store0))).2.2.2.2
      rw [hsched, List.map_append, hlog]
      have hnz : rows.length % BATCH_SIZE ≠ 0 := by
        intro h0'
        rw [h0'] at hblen
        rcases hb : (rows.foldl (GenAlt.processRow env pd)
            (GenAlt.initState store0)).batch with _ | ⟨a, l⟩
        · rw [hb] at hne
          simp [List.isEmpty] at hne
        · rw [hb] at hblen
          simp at hblen
      unfold GenAlt.callSizes
      rw [if_neg hnz]
      simp [hblen]

/-- C6: batches of admitted normal-size rows flush at the `BATCH_SIZE = 8`
capacity, and the non-empty remainder flushes at end of input: for any 17 rows
that are all admitted at normal size (`admitsNormal`) and whose image URLs have
pairwise distinct base filenames (no duplicates and no resize variants), the
batch phase of `process_images` issues exactly three vision-generation calls,
with batch sizes 8, 8, and 1 in that order. -/
theorem C6_batch_sizes (env : GenAlt.Env) (pd : List (String × PageCtx))
    (rows : List (Nat × Row)) (store0 : List Row)
    (hnd : (rows.map (fun q => GenAlt.extract_base_filename q.2.dest)).Nodup)
    (hadm : ∀ q ∈ rows, GenAlt.admitsNormal env pd q = true)
    (hlen : rows.length = 17) :
    (GenAlt.batchPhase env pd rows
      (GenAlt.initState store0)).genLog.map List.length = [8, 8, 1] := by
  rw [gat_batch_sizes env pd rows store0 hnd hadm, hlen]
  decide

theorem C6_witness :
    (GenAlt.batchPhase envOkGen []
      (CSVHandler.get_rows_to_process demoStore17)
      (GenAlt.initState demoStore17)).genLog.map List.length = [8, 8, 1] :=
  C6_batch_sizes envOkGen [] (CSVHandler.get_rows_to_process demoStore17)
    demoStore17 (by decide) (by decide) (by decide)

theorem lookup_mem_pair {β : Type _} :
    ∀ (l : List (String × β)) (k : String) (v : β),
      List.lookup k l = some v → (k, v) ∈ l := by
  intro l
  induction l with
  | nil => intro k v h; simp [List.lookup] at h
  | cons e t ih =>
    intro k v h
    obtain ⟨k1, v1⟩ := e
    rw [List.lookup_cons] at h
    cases hbeq : (k == k1) with
    | true =>
      rw [hbeq] at h
      injection h with h
      have hk : k = k1 := by simpa using hbeq
      subst hk
      subst h
      exact List.mem_cons_self _ _
    | false =>
      rw [hbeq] at h
      exact List.mem_cons_of_mem _ (ih k v h)

theorem getD_of_get? {α : Type _} [Inhabited α] (l : List α) (n : Nat) (a : α)
    (h : l.get? n = some a) : l.getD n default = a := by
  rw [List.getD_eq_get?, h]
  rfl

theorem append_ne_empty_left {pre : String} (s : String) (h : ¬ pre = "") :
    ¬ (pre ++ s) = "" := by
  intro he
  apply h
  have hd := congrArg String.data he
  rw [String.data_append] at hd
  exact String.ext ((List.append_eq_nil.mp hd).1.trans rfl)

theorem altIsEmpty_some_ne (t : String) (h : ¬ t = "") :
    altIsEmpty (some t) = false := by
  simp [altIsEmpty, h]

theorem store_foldl_keep (step : List Row → Nat → List Row)
    (hlen : ∀ s i, (step s i).length = s.length)
    (halt : ∀ s i j, ((step s i).getD j default).altText =
      (s.getD j default).altText) :
    ∀ (idxs : List Nat) (s : List Row),
      (idxs.foldl step s).length = s.length ∧
      ∀ j, ((idxs.foldl step s).getD j default).altText =
        (s.getD j default).altText := by
  intro idxs
  induction idxs with
  | nil => intro s; exact ⟨rfl, fun j => rfl⟩
  | cons i t ih =>
    intro s
    rw [List.foldl_cons]
    obtain ⟨ih1, ih2⟩ := ih (step s i)
    exact ⟨ih1.trans (hlen s i), fun j => (ih2 j).trans (halt s i j)⟩

theorem altText_updateAt_keep (f : Row → Row)
    (hf : ∀ r, (f r).altText = r.altText) (s : List Row) (i j : Nat) :
    ((updateAt f i s).getD j default).altText = (s.getD j default).altText := by
  by_cases hij : i = j
  · subst hij
    by_cases hi : i < s.length
    · rw [getD_updateAt_self _ _ _ _ hi, hf]
    · rw [updateAt_ge _ _ _ (le_of_not_lt hi)]
  · rw [getD_updateAt_ne _ _ _ _ hij]

theorem proc_scrapePage_keeps (env : Processor.Env) (ss : Processor.PState)
    (q : String) :
    (Processor.scrapePage env ss q).store.length = ss.store.length ∧
    (∀ j, ((Processor.scrapePage env ss q).store.getD j default).altText =
      (ss.store.getD j default).altText) ∧
    (Processor.scrapePage env ss q).batch = ss.batch ∧
    (Processor.scrapePage env ss q).batchRows = ss.batchRows ∧
    (Processor.scrapePage env ss q).processedImages = ss.processedImages ∧
    (Processor.scrapePage env ss q).genLog = ss.genLog ∧
    (Processor.scrapePage env ss q).downloadLog = ss.downloadLog := by
  unfold Processor.scrapePage
  dsimp only
  split
  · exact ⟨rfl, fun j => rfl, rfl, rfl, rfl, rfl, rfl⟩
  · split
    · exact ⟨rfl, fun j => rfl, rfl, rfl, rfl, rfl, rfl⟩
    · next res heq =>
        have hk := store_foldl_keep
          (fun s i =>
            updateAt (fun r =>
              { r with titleTag := some res.title,
                       h1Tag := some res.h1,
                       adjacentText := some (((res.images.lookup
                         ((s.getD i default).dest)).getD
                         { adjacentText := "", imgError := none }).adjacentText) })
              i s)
          (fun s i => length_updateAt _ _ _)
          (fun s i j => altText_updateAt_keep
            (fun r =>
              { r with titleTag := some res.title,
                       h1Tag := some res.h1,
                       adjacentText := some (((res.images.lookup
                         ((s.getD i default).dest)).getD
                         { adjacentText := "", imgError := none }).adjacentText) })
            (fun r => rfl) s i j)
          ((CSVHandler.get_images_for_page ss.store q).map (fun p => p.1))
          ss.store
        exact ⟨hk.1, hk.2, rfl, rfl, rfl, rfl, rfl⟩
    · exact ⟨rfl, fun j => rfl, rfl, rfl, rfl, rfl, rfl⟩

theorem proc_scrape_keeps (env : Processor.Env) :
    ∀ (pages : List String) (ss : Processor.PState),
      (pages.foldl (Processor.scrapePage env) ss).store.length =
        ss.store.length ∧
      (∀ j, ((pages.foldl (Processor.scrapePage env) ss).store.getD j
          default).altText = (ss.store.getD j default).altText) ∧
      (pages.foldl (Processor.scrapePage env) ss).batch = ss.batch ∧
      (pages.foldl (Processor.scrapePage env) ss).batchRows = ss.batchRows ∧
      (pages.foldl (Processor.scrapePage env) ss).processedImages =
        ss.processedImages ∧
      (pages.foldl (Processor.scrapePage env) ss).genLog = ss.genLog ∧
      (pages.foldl (Processor.scrapePage env) ss).downloadLog =
        ss.downloadLog := by
  intro pages
  induction pages with
  | nil => intro ss; exact ⟨rfl, fun j => rfl, rfl, rfl, rfl, rfl, rfl⟩
  | cons q t ih =>
    intro ss
    rw [List.foldl_cons]
    obtain ⟨i1, i2, i3, i4, i5, i6, i7⟩ := ih (Processor.scrapePage env ss q)
    obtain ⟨s1, s2, s3, s4, s5, s6, s7⟩ := proc_scrapePage_keeps env ss q
    exact ⟨i1.trans s1, fun j => (i2 j).trans (s2 j), i3.trans s3, i4.trans s4,
      i5.trans s5, i6.trans s6, i7.trans s7⟩

theorem optTruthy_getD_ne (a : Option String) (h : optTruthy a = true) :
    ¬ (a.getD "") = "" := by
  cases a with
  | none => simp [optTruthy] at h
  | some s => simpa [optTruthy] using h

theorem altIsEmpty_setAlt_other (s : List Row) (idx i : Nat) (v : String)
    (h : altIsEmpty ((Processor.setAlt s idx v).getD i default).altText = true)
    (hv : ¬ v = "") :
    altIsEmpty ((s.getD i default).altText) = true := by
  unfold Processor.setAlt at h
  by_cases hir : idx = i
  · subst hir
    by_cases hlt : idx < s.length
    · rw [getD_updateAt_self _ _ _ _ hlt] at h
      rw [altIsEmpty_some_ne v hv] at h
      exact absurd h (by simp)
    · rwa [updateAt_ge _ _ _ (le_of_not_lt hlt)] at h
  · rwa [getD_updateAt_ne _ _ _ _ hir] at h

theorem altIsEmpty_setAlt_self (s : List Row) (idx : Nat) (v : String)
    (hlt : idx < s.length) (hv : ¬ v = "") :
    altIsEmpty ((Processor.setAlt s idx v).getD idx default).altText = false := by
  unfold Processor.setAlt
  rw [getD_updateAt_self _ _ _ _ hlt]
  exact altIsEmpty_some_ne v hv

theorem proc_apply_keep (b : List Processor.BatchItem) (br : List Nat)
    (st : Processor.PState) (q : Nat × Processor.GenResult)
    (hq : optTruthy q.2.altText = true ∨ optTruthy q.2.error = true)
    (hc : ∀ v ∈ st.processedImages, ¬ v.2 = "") :
    (Processor.applyGenResult b br st q).store.length = st.store.length ∧
    (∀ v ∈ (Processor.applyGenResult b br st q).processedImages,
      ¬ v.2 = "") ∧
    (∀ i, altIsEmpty (((Processor.applyGenResult b br st q).store.getD i
        default).altText) = true →
      altIsEmpty ((st.store.getD i default).altText) = true) ∧
    (∀ i, i < st.store.length → br.get? q.1 = some i →
      (b.get? q.1).isSome = true →
      altIsEmpty (((Processor.applyGenResult b br st q).store.getD i
        default).altText) = false) := by
  unfold Processor.applyGenResult
  dsimp only
  split
  next item rowIdx heqb heqr =>
    split
    · next herr =>
        refine ⟨?_, hc, ?_, ?_⟩
        · exact length_updateAt _ _ _
        · intro i h
          exact altIsEmpty_setAlt_other _ _ _ _ h
            (append_ne_empty_left _ (by decide))
        · intro i hlt hbr _
          rw [heqr] at hbr
          injection hbr with hbr
          subst hbr
          exact altIsEmpty_setAlt_self _ _ _ hlt
            (append_ne_empty_left _ (by decide))
    · next herr =>
        have halt : optTruthy q.2.altText = true := by
          rcases hq with h | h
          · exact h
          · exact absurd h herr
        have hne : ¬ (q.2.altText.getD "") = "" := optTruthy_getD_ne _ halt
        refine ⟨?_, ?_, ?_, ?_⟩
        · exact length_updateAt _ _ _
        · intro v hv
          rcases List.mem_cons.mp hv with rfl | hv
          · exact hne
          · rcases List.mem_cons.mp hv with rfl | hv
            · exact hne
            · exact hc v hv
        · intro i h
          exact altIsEmpty_setAlt_other _ _ _ _ h hne
        · intro i hlt hbr _
          rw [heqr] at hbr
          injection hbr with hbr
          subst hbr
          exact altIsEmpty_setAlt_self _ _ _ hlt hne
  next hno =>
    refine ⟨rfl, hc, fun i h => h, ?_⟩
    intro i hlt hbr hb
    obtain ⟨item, hitem⟩ := Option.isSome_iff_exists.mp hb
    exact (hno item i hitem hbr).elim

theorem proc_mark_keep (msg : String) :
    ∀ (br : List Nat) (st : Processor.PState),
      (Processor.markBatchFailed br msg st).store.length = st.store.length ∧
      (Processor.markBatchFailed br msg st).processedImages =
        st.processedImages ∧
      (∀ i, i < st.store.length →
        altIsEmpty (((Processor.markBatchFailed br msg st).store.getD i
          default).altText) = true →
        altIsEmpty ((st.store.getD i default).altText) = true ∧ i ∉ br) := by
  intro br
  induction br with
  | nil =>
    intro st
    exact ⟨rfl, rfl, fun i _ h => ⟨h, List.not_mem_nil i⟩⟩
  | cons j t ih =>
    intro st
    unfold Processor.markBatchFailed
    rw [List.foldl_cons]
    have ihh := ih
      { st with
        store := Processor.setAlt st.store j ("API error: " ++ msg)
        results := { st.results with totalFailed := st.results.totalFailed + 1 } }
    unfold Processor.markBatchFailed at ihh
    obtain ⟨h1, h2, h3⟩ := ihh
    refine ⟨h1.trans (length_updateAt _ _ _), h2, ?_⟩
    intro i hlt hafter
    have hlt1 : i < (Processor.setAlt st.store j ("API error: " ++ msg)).length := by
      unfold Processor.setAlt
      rw [length_updateAt]
      exact hlt
    obtain ⟨hmid, hnott⟩ := h3 i hlt1 hafter
    have hij : ¬ i = j := by
      intro h
      subst h
      rw [altIsEmpty_setAlt_self st.store i ("API error: " ++ msg) hlt
        (append_ne_empty_left _ (by decide))] at hmid
      exact absurd hmid (by simp)
    refine ⟨altIsEmpty_setAlt_other _ _ _ _ hmid
      (append_ne_empty_left _ (by decide)), ?_⟩
    intro hmem
    rcases List.mem_cons.mp hmem with h | h
    · exact hij h
    · exact hnott h

theorem proc_applies_keep (b : List Processor.BatchItem) (br : List Nat) :
    ∀ (l : List (Nat × Processor.GenResult)) (st : Processor.PState),
      (∀ q ∈ l, optTruthy q.2.altText = true ∨ optTruthy q.2.error = true) →
      (∀ v ∈ st.processedImages, ¬ v.2 = "") →
      ((l.foldl (Processor.applyGenResult b br) st).store.length =
        st.store.length ∧
       (∀ v ∈ (l.foldl (Processor.applyGenResult b br) st).processedImages,
         ¬ v.2 = "") ∧
       (∀ i, altIsEmpty (((l.foldl (Processor.applyGenResult b br)
           st).store.getD i default).altText) = true →
         altIsEmpty ((st.store.getD i default).altText) = true) ∧
       (∀ i, i < st.store.length →
         (∃ q ∈ l, br.get? q.1 = some i ∧ (b.get? q.1).isSome = true) →
         altIsEmpty (((l.foldl (Processor.applyGenResult b br)
           st).store.getD i default).altText) = false)) := by
  intro l
  induction l with
  | nil =>
    intro st _ hc
    exact ⟨rfl, hc, fun i h => h, fun i _ hex => by
      obtain ⟨q, hq, -, -⟩ := hex
      exact absurd hq (List.not_mem_nil q)⟩
  | cons q t ih =>
    intro st hgood hc
    rw [List.foldl_cons]
    obtain ⟨a1, a2, a3, a4⟩ :=
      proc_apply_keep b br st q (hgood q (List.mem_cons_self _ _)) hc
    obtain ⟨i1, i2, i3, i4⟩ := ih (Processor.applyGenResult b br st q)
      (fun q' hq' => hgood q' (List.mem_cons_of_mem _ hq')) a2
    refine ⟨i1.trans a1, i2, fun i h => a3 i (i3 i h), ?_⟩
    intro i hlt hex
    obtain ⟨q', hq', hbr', hb'⟩ := hex
    rcases List.mem_cons.mp hq' with rfl | hq'
    · have hfalse := a4 i hlt hbr' hb'
      cases hres : altIsEmpty (((t.foldl (Processor.applyGenResult b br)
          (Processor.applyGenResult b br st q')).store.getD i
          default).altText) with
      | false => rfl
      | true =>
        rw [i3 i hres] at hfalse
        exact absurd hfalse (by simp)
    · exact i4 i (by rw [a1]; exact hlt) ⟨q', hq', hbr', hb'⟩

theorem proc_flush_total (env : Processor.Env) (hwf : Processor.WellFormedGen env)
    (st : Processor.PState)
    (hbl : st.batchRows.length = st.batch.length)
    (hcache : ∀ v ∈ st.processedImages, ¬ v.2 = "") :
    (Processor.flushBatch env st).batch = [] ∧
    (Processor.flushBatch env st).batchRows = [] ∧
    (Processor.flushBatch env st).store.length = st.store.length ∧
    (∀ v ∈ (Processor.flushBatch env st).processedImages, ¬ v.2 = "") ∧
    (∀ i, i < st.store.length →
      altIsEmpty (((Processor.flushBatch env st).store.getD i
        default).altText) = true →
      altIsEmpty ((st.store.getD i default).altText) = true ∧
        i ∉ st.batchRows) := by
  have hwfb := hwf st.batch
  unfold Processor.flushBatch
  dsimp only
  split
  next msg heq =>
    obtain ⟨m1, m2, m3⟩ := proc_mark_keep msg st.batchRows
      { st with genLog := st.genLog ++ [st.batch] }
    refine ⟨rfl, rfl, m1, ?_, ?_⟩
    · intro v hv
      rw [m2] at hv
      exact hcache v hv
    · intro i hlt h
      exact m3 i hlt h
  next rs heq =>
    rw [heq] at hwfb
    obtain ⟨hrl, hrs⟩ := hwfb
    rw [if_pos (le_of_eq hrl)]
    have hgood : ∀ q ∈ rs.enum,
        optTruthy q.2.altText = true ∨ optTruthy q.2.error = true := by
      intro q hq
      have hget := List.mem_enum_iff_get?.mp hq
      exact hrs q.2 (List.get?_mem hget)
    obtain ⟨f1, f2, f3, f4⟩ := proc_applies_keep st.batch st.batchRows rs.enum
      { st with genLog := st.genLog ++ [st.batch] } hgood hcache
    refine ⟨rfl, rfl, f1, f2, ?_⟩
    intro i hlt h
    refine ⟨f3 i h, ?_⟩
    intro hmem
    obtain ⟨j, hj⟩ := List.mem_iff_get?.mp hmem
    have hjlt : j < st.batchRows.length := (List.get?_eq_some.mp hj).1
    have hjrs : j < rs.length := by
      rw [hrl]
      rw [hbl] at hjlt
      exact hjlt
    have hjb : j < st.batch.length := by
      rw [← hbl]
      exact hjlt
    have henum : (j, rs.get ⟨j, hjrs⟩) ∈ rs.enum :=
      List.mk_mem_enum_iff_get?.mpr (List.get?_eq_get hjrs)
    have hf4 := f4 i hlt
      ⟨(j, rs.get ⟨j, hjrs⟩), henum, hj, by rw [List.get?_eq_get hjb]; rfl⟩
    rw [hf4] at h
    exact absurd h (by simp)

theorem append_ne_empty_right (pre : String) {s : String} (h : ¬ s = "") :
    ¬ (pre ++ s) = "" := by
  intro he
  apply h
  have hd := congrArg String.data he
  rw [String.data_append] at hd
  exact String.ext ((List.append_eq_nil.mp hd).2.trans rfl)

theorem proc_step_write (st : Processor.PState) (j : Nat) (t : List Nat)
    (v : String) (hv : ¬ v = "") (hj : j < st.store.length) :
    (∀ i, i < st.store.length →
      altIsEmpty ((st.store.getD i default).altText) = true →
      i ∈ j :: t ∨ i ∈ st.batchRows) →
    ∀ i, i < st.store.length →
      altIsEmpty ((Processor.setAlt st.store j v).getD i default).altText =
        true →
      i ∈ t ∨ i ∈ st.batchRows := by
  intro hT3 i hlt h
  have hE : altIsEmpty ((st.store.getD i default).altText) = true :=
    altIsEmpty_setAlt_other _ _ _ _ h hv
  have hij : ¬ i = j := by
    intro hh
    subst hh
    rw [altIsEmpty_setAlt_self _ _ _ hj hv] at h
    exact absurd h (by simp)
  rcases hT3 i hlt hE with hmem | hmem
  · rcases List.mem_cons.mp hmem with hh | hh
    · exact absurd hh hij
    · exact Or.inl hh
  · exact Or.inr hmem

theorem proc_admit_flush_case (env : Processor.Env)
    (hwf : Processor.WellFormedGen env) (st : Processor.PState) (j : Nat)
    (t : List Nat) (item : Processor.BatchItem) (dl : List String)
    (hj : j < st.store.length)
    (hbl : st.batchRows.length = st.batch.length)
    (hcache : ∀ v ∈ st.processedImages, ¬ v.2 = "")
    (hT3 : ∀ i, i < st.store.length →
      altIsEmpty ((st.store.getD i default).altText) = true →
      i ∈ j :: t ∨ i ∈ st.batchRows) :
    (Processor.flushBatch env { st with batch := st.batch ++ [item], batchRows := st.batchRows ++ [j], downloadLog := dl }).store.length = st.store.length ∧
    (Processor.flushBatch env { st with batch := st.batch ++ [item], batchRows := st.batchRows ++ [j], downloadLog := dl }).batchRows.length =
      (Processor.flushBatch env { st with batch := st.batch ++ [item], batchRows := st.batchRows ++ [j], downloadLog := dl }).batch.length ∧
    (∀ v ∈ (Processor.flushBatch env { st with batch := st.batch ++ [item], batchRows := st.batchRows ++ [j], downloadLog := dl }).processedImages, ¬ v.2 = "") ∧
    (∀ i, i < st.store.length →
      altIsEmpty (((Processor.flushBatch env { st with batch := st.batch ++ [item], batchRows := st.batchRows ++ [j], downloadLog := dl }).store.getD i default).altText) = true →
      i ∈ t ∨ i ∈ (Processor.flushBatch env { st with batch := st.batch ++ [item], batchRows := st.batchRows ++ [j], downloadLog := dl }).batchRows) := by
  obtain ⟨fb, fbr, flen, fcache, fT3⟩ := proc_flush_total env hwf
    { st with batch := st.batch ++ [item], batchRows := st.batchRows ++ [j], downloadLog := dl }
    (by simp [hbl]) hcache
  refine ⟨flen.trans rfl, by rw [fb, fbr]; rfl, fcache, ?_⟩
  intro i hlt h
  obtain ⟨hE, hnot⟩ := fT3 i hlt h
  rcases hT3 i hlt hE with hmem | hmem
  · rcases List.mem_cons.mp hmem with rfl | hh
    · exact absurd (List.mem_append_right _ (List.mem_singleton.mpr rfl)) hnot
    · exact Or.inl hh
  · exact absurd (List.mem_append_left _ hmem) hnot

theorem proc_processRow_step (env : Processor.Env)
    (hwf : Processor.WellFormedGen env) (st : Processor.PState) (j : Nat)
    (t : List Nat)
    (hj : j < st.store.length)
    (hbl : st.batchRows.length = st.batch.length)
    (hcache : ∀ v ∈ st.processedImages, ¬ v.2 = "")
    (hT3 : ∀ i, i < st.store.length →
      altIsEmpty ((st.store.getD i default).altText) = true →
      i ∈ j :: t ∨ i ∈ st.batchRows) :
    (Processor.processRow env st j).store.length = st.store.length ∧
    (Processor.processRow env st j).batchRows.length =
      (Processor.processRow env st j).batch.length ∧
    (∀ v ∈ (Processor.processRow env st j).processedImages, ¬ v.2 = "") ∧
    (∀ i, i < st.store.length →
      altIsEmpty (((Processor.processRow env st j).store.getD i
        default).altText) = true →
      i ∈ t ∨ i ∈ (Processor.processRow env st j).batchRows) := by
  unfold Processor.processRow
  dsimp only
  split
  · next alt heq =>
      have hv : ¬ alt = "" := hcache _ (lookup_mem_pair _ _ _ heq)
      exact ⟨length_updateAt _ _ _, hbl, hcache,
        proc_step_write st j t alt hv hj hT3⟩
  · split
    · next alt heq =>
        have hv : ¬ alt = "" := hcache _ (lookup_mem_pair _ _ _ heq)
        refine ⟨length_updateAt _ _ _, hbl, ?_,
          proc_step_write st j t alt hv hj hT3⟩
        intro v hv'
        rcases List.mem_cons.mp hv' with rfl | hv'
        · exact hv
        · exact hcache v hv'
    · split
      · exact ⟨length_updateAt _ _ _, hbl, hcache,
          proc_step_write st j t _ (by decide) hj hT3⟩
      · split
        · exact ⟨length_updateAt _ _ _, hbl, hcache,
            proc_step_write st j t _ (by decide) hj hT3⟩
        · split
          · exact ⟨length_updateAt _ _ _, hbl, hcache,
              proc_step_write st j t _
                (append_ne_empty_right _ (by decide)) hj hT3⟩
          · split
            · next path width height hl hd =>
                split
                · exact ⟨length_updateAt _ _ _, hbl, hcache,
                    proc_step_write st j t _
                      (append_ne_empty_right _ (by decide)) hj hT3⟩
                · split
                  · next hflush =>
                      rw [if_pos (by
                        simp only [List.length_append, List.length_singleton]
                        omega)]
                      exact proc_admit_flush_case env hwf st j t _ _ hj hbl
                        hcache hT3
                  · next hnoflush =>
                      split
                      · next hfl =>
                          exact proc_admit_flush_case env hwf st j t _ _ hj hbl
                            hcache hT3
                      · next hnf =>
                          refine ⟨rfl, by simp [hbl], hcache, ?_⟩
                          intro i hlt h
                          rcases hT3 i hlt h with hmem | hmem
                          · rcases List.mem_cons.mp hmem with rfl | hh
                            · exact Or.inr (List.mem_append_right _
                                (List.mem_singleton.mpr rfl))
                            · exact Or.inl hh
                          · exact Or.inr (List.mem_append_left _ hmem)
            · exact ⟨length_updateAt _ _ _, hbl, hcache,
                proc_step_write st j t _ (by decide) hj hT3⟩

theorem proc_total_aux (env : Processor.Env)
    (hwf : Processor.WellFormedGen env) :
    ∀ (idxs : List Nat) (st : Processor.PState),
      (∀ i ∈ idxs, i < st.store.length) →
      st.batchRows.length = st.batch.length →
      (∀ v ∈ st.processedImages, ¬ v.2 = "") →
      (∀ i, i < st.store.length →
        altIsEmpty ((st.store.getD i default).altText) = true →
        i ∈ idxs ∨ i ∈ st.batchRows) →
      ((idxs.foldl (Processor.processRow env) st).store.length =
        st.store.length ∧
       (idxs.foldl (Processor.processRow env) st).batchRows.length =
         (idxs.foldl (Processor.processRow env) st).batch.length ∧
       (∀ v ∈ (idxs.foldl (Processor.processRow env) st).processedImages,
         ¬ v.2 = "") ∧
       (∀ i, i < st.store.length →
         altIsEmpty (((idxs.foldl (Processor.processRow env) st).store.getD i
           default).altText) = true →
         i ∈ (idxs.foldl (Processor.processRow env) st).batchRows)) := by
  intro idxs
  induction idxs with
  | nil =>
    intro st _ hbl hcache hT3
    exact ⟨rfl, hbl, hcache, fun i hlt h =>
      (hT3 i hlt h).resolve_left (List.not_mem_nil i)⟩
  | cons j tl ih =>
    intro st hin hbl hcache hT3
    rw [List.foldl_cons]
    obtain ⟨s1, s2, s3, s4⟩ := proc_processRow_step env hwf st j tl
      (hin j (List.mem_cons_self _ _)) hbl hcache hT3
    obtain ⟨i1, i2, i3, i4⟩ := ih (Processor.processRow env st j)
      (fun i hi => by rw [s1]; exact hin i (List.mem_cons_of_mem _ hi))
      s2 s3
      (fun i hlt h => s4 i (by rw [← s1]; exact hlt) h)
    refine ⟨i1.trans s1, i2, i3, ?_⟩
    intro i hlt h
    exact i4 i (by rw [s1]; exact hlt) h

theorem rows_to_process_eq_nil (store : List Row)
    (h : ∀ i, i < store.length →
      altIsEmpty ((store.getD i default).altText) = false) :
    CSVHandler.get_rows_to_process store = [] := by
  unfold CSVHandler.get_rows_to_process
  refine List.filter_eq_nil_iff.mpr ?_
  intro p hp
  have hget : store.get? p.1 = some p.2 := List.mem_enum_iff_get?.mp hp
  have hlt : p.1 < store.length := (List.get?_eq_some.mp hget).1
  have hgd : store.getD p.1 default = p.2 := getD_of_get? _ _ _ hget
  intro hPE
  have := h p.1 hlt
  rw [hgd] at this
  rw [this] at hPE
  exact absurd hPE (by simp)

theorem mem_rows_idx (store : List Row) (i : Nat) :
    i ∈ (CSVHandler.get_rows_to_process store).map (fun p => p.1) ↔
      i < store.length ∧
        altIsEmpty ((store.getD i default).altText) = true := by
  unfold CSVHandler.get_rows_to_process
  constructor
  · intro hi
    have hi' : i ∈ (((List.enumFrom 0 store).filter
        (fun p => altIsEmpty p.2.altText)).map Prod.fst) := hi
    obtain ⟨k, hk, hik, hPk⟩ :=
      (@mem_fst_filter_enumFrom (fun r => altIsEmpty r.altText) store 0 i).mp hi'
    refine ⟨by omega, ?_⟩
    rw [show i = k by omega]
    exact hPk
  · rintro ⟨hlt, hE⟩
    exact (@mem_fst_filter_enumFrom (fun r => altIsEmpty r.altText) store 0
      i).mpr ⟨i, hlt, (Nat.zero_add i).symm, hE⟩

theorem proc_first_run_total (env : Processor.Env)
    (hwf : Processor.WellFormedGen env)
    (hforb : Processor.NoForbiddenP env) (store0 : List Row) :
    CSVHandler.get_rows_to_process
      ((Processor.process_csv_file env store0).store) = [] := by
  unfold Processor.process_csv_file
  dsimp only
  have hab := (proc_scrape_aux env hforb (CSVHandler.get_unique_pages store0)
    (Processor.initState store0) rfl).2
  rw [if_neg (by rw [hab]; simp)]
  obtain ⟨k1, k2, k3, k4, k5, k6, k7⟩ := proc_scrape_keeps env
    (CSVHandler.get_unique_pages store0) (Processor.initState store0)
  obtain ⟨c1, c2, c3, c4⟩ := proc_total_aux env hwf
    ((CSVHandler.get_rows_to_process store0).map (fun p => p.1))
    ((CSVHandler.get_unique_pages store0).foldl (Processor.scrapePage env)
      (Processor.initState store0))
    (by
      intro i hi
      rw [k1]
      have hm := (mem_rows_idx store0 i).mp hi
      simpa [Processor.initState] using hm.1)
    (by rw [k4, k3]; rfl)
    (by
      intro v hv
      rw [k5] at hv
      exact absurd hv (List.not_mem_nil v))
    (by
      intro i hlt h
      rw [k2 i] at h
      rw [k1] at hlt
      refine Or.inl ((mem_rows_idx store0 i).mpr ?_)
      constructor
      · simpa [Processor.initState] using hlt
      · simpa [Processor.initState] using h)
  split
  · next hempty =>
      have hbrnil : (((CSVHandler.get_rows_to_process store0).map
          (fun p => p.1)).foldl (Processor.processRow env)
          ((CSVHandler.get_unique_pages store0).foldl (Processor.scrapePage env)
            (Processor.initState store0))).batchRows = [] := by
        refine List.length_eq_zero.mp ?_
        rw [c2]
        rcases hb : (((CSVHandler.get_rows_to_process store0).map
            (fun p => p.1)).foldl (Processor.processRow env)
            ((CSVHandler.get_unique_pages store0).foldl
              (Processor.scrapePage env) (Processor.initState store0))).batch
          with _ | ⟨a, l⟩
        · rw [hb]
          rfl
        · rw [hb] at hempty
          simp [List.isEmpty] at hempty
      refine rows_to_process_eq_nil _ ?_
      intro i hlt
      cases hres : altIsEmpty (((((CSVHandler.get_rows_to_process store0).map
          (fun p => p.1)).foldl (Processor.processRow env)
          ((CSVHandler.get_unique_pages store0).foldl (Processor.scrapePage env)
            (Processor.initState store0))).store.getD i default).altText) with
      | false => rfl
      | true =>
          have := c4 i (by rw [← c1]; exact hlt) hres
          rw [hbrnil] at this
          exact absurd this (List.not_mem_nil i)
  · next hne =>
      obtain ⟨fb, fbr, flen, fcache, fT3⟩ := proc_flush_total env hwf
        ((((CSVHandler.get_rows_to_process store0).map
          (fun p => p.1)).foldl (Processor.processRow env)
          ((CSVHandler.get_unique_pages store0).foldl (Processor.scrapePage env)
            (Processor.initState store0)))) c2 c3
      refine rows_to_process_eq_nil _ ?_
      intro i hlt
      rw [flen] at hlt
      cases hres : altIsEmpty (((Processor.flushBatch env
          ((((CSVHandler.get_rows_to_process store0).map
            (fun p => p.1)).foldl (Processor.processRow env)
            ((CSVHandler.get_unique_pages store0).foldl
              (Processor.scrapePage env)
              (Processor.initState store0))))).store.getD i
          default).altText) with
      | false => rfl
      | true =>
          obtain ⟨hE, hnot⟩ := fT3 i hlt hres
          exact absurd (c4 i (by rw [← c1]; exact hlt) hE) hnot

theorem proc_second_run (env : Processor.Env) (store : List Row)
    (h : CSVHandler.get_rows_to_process store = []) :
    Processor.process_csv_file env store = Processor.initState store := by
  have hup : CSVHandler.get_unique_pages store = [] := by
    unfold CSVHandler.get_unique_pages
    rw [h]
    rfl
  unfold Processor.process_csv_file
  dsimp only
  rw [h, hup]
  simp only [List.foldl_nil, List.map_nil]
  rw [if_neg (by simp [Processor.initState])]
  rw [if_pos (by simp [Processor.initState])]

/-- **C4, counterexample.** In the CLI pipeline (`generate_alt_text.py`) a
vision-generation error does not leave the row's alt text non-empty: the
failure is written to the `message` column, `ALT text` stays empty, the rows
remain in `get_rows_to_process`, and a second no-restart run repeats the
same two vision-generation calls. -/
theorem C4_counterexample :
    (GenAlt.run envFailGen demoStoreVariants).genLog.length = 2 ∧
    ((GenAlt.run envFailGen demoStoreVariants).store.getD 0 default).message =
      "API error: boom" ∧
    altIsEmpty ((GenAlt.run envFailGen demoStoreVariants).store.getD 0
      default).altText = true ∧
    CSVHandler.get_rows_to_process
      (GenAlt.run envFailGen demoStoreVariants).store ≠ [] ∧
    (GenAlt.run envFailGen
      ((GenAlt.run envFailGen demoStoreVariants).store)).genLog.length = 2 := by
  decide

/-- **C4, amended.** In the programmatic pipeline (`processor.py`) the claim
holds: every per-row outcome, success or soft failure (oversize skip,
download failure, icon skip, vision-generation error), writes a non-empty
`ALT text`, so after one `process_csv_file` run over any store no row is
left in `get_rows_to_process`, and a second run on the resulting table
issues no vision-generation call and downloads no image. In the CLI pipeline
(`generate_alt_text.py`) the claim fails: failures are recorded in the
`message` column, the alt text stays empty, and the rows are retried. -/
theorem C4_amended_retry_behavior (env : Processor.Env)
    (hwf : Processor.WellFormedGen env) (hforb : Processor.NoForbiddenP env)
    (store0 : List Row) :
    CSVHandler.get_rows_to_process
      ((Processor.process_csv_file env store0).store) = [] ∧
    (Processor.process_csv_file env
      ((Processor.process_csv_file env store0).store)).genLog = [] ∧
    (Processor.process_csv_file env
      ((Processor.process_csv_file env store0).store)).downloadLog = [] := by
  have h1 := proc_first_run_total env hwf hforb store0
  refine ⟨h1, ?_, ?_⟩
  · rw [proc_second_run env _ h1]
    rfl
  · rw [proc_second_run env _ h1]
    rfl

/-- **C4, witness.** -/
theorem C4_witness :
    CSVHandler.get_rows_to_process
      ((Processor.process_csv_file pEnvOk pStoreVariants).store) = [] ∧
    (Processor.process_csv_file pEnvOk
      ((Processor.process_csv_file pEnvOk pStoreVariants).store)).genLog =
      [] ∧
    (Processor.process_csv_file pEnvOk
      ((Processor.process_csv_file pEnvOk
        pStoreVariants).store)).downloadLog = [] :=
  C4_amended_retry_behavior pEnvOk
    (by
      intro payload
      show (match Processor.GenOutcome.results (payload.map (fun _ =>
        ({ altText := some "An alt", error := none } : Processor.GenResult)))
        with
        | .raise _ => True
        | .results rs => rs.length = payload.length ∧
            ∀ r ∈ rs, optTruthy r.altText = true ∨ optTruthy r.error = true)
      refine ⟨by simp, ?_⟩
      intro r hr
      simp only [List.mem_map] at hr
      obtain ⟨b, hb, rfl⟩ := hr
      left
      decide)
    (fun p m h => ScrapeOutcome.noConfusion h) pStoreVariants

theorem mem_zip_of_mem_left {α β : Type _} :
    ∀ (l1 : List α) (l2 : List β) (a : α), a ∈ l1 → l2.length = l1.length →
      ∃ b, (a, b) ∈ l1.zip l2 := by
  intro l1
  induction l1 with
  | nil => intro l2 a ha _; exact absurd ha (List.not_mem_nil a)
  | cons x t ih =>
    intro l2 a ha hlen
    cases l2 with
    | nil => simp at hlen
    | cons y t2 =>
      rcases List.mem_cons.mp ha with rfl | ha'
      · exact ⟨y, List.mem_cons_self _ _⟩
      · obtain ⟨b, hb⟩ := ih t2 a ha' (by simpa using hlen)
        exact ⟨b, List.mem_cons_of_mem _ hb⟩

theorem gat_applies_lookup_frozen (batch : List GenAlt.BatchItem)
    (indices : List Nat) :
    ∀ (l : List GenAlt.GenResult) (st : GenAlt.PState) (u bs : String),
      (∀ x ∈ l, x.imageUrl ≠ u) →
      (∀ x ∈ l, GenAlt.extract_base_filename x.imageUrl ≠ bs) →
      ((l.foldl (GenAlt.applyGenResult batch indices)
          st).processedImages.lookup u = st.processedImages.lookup u ∧
       (l.foldl (GenAlt.applyGenResult batch indices)
          st).processedBase.lookup bs = st.processedBase.lookup bs) := by
  intro l
  induction l with
  | nil => intro st u bs _ _; exact ⟨rfl, rfl⟩
  | cons x t ih =>
    intro st u bs hu hb
    rw [List.foldl_cons]
    obtain ⟨ih1, ih2⟩ := ih (GenAlt.applyGenResult batch indices st x)
      u bs (fun y hy => hu y (List.mem_cons_of_mem _ hy))
      (fun y hy => hb y (List.mem_cons_of_mem _ hy))
    have hxu := hu x (List.mem_cons_self _ _)
    have hxb := hb x (List.mem_cons_self _ _)
    refine ⟨ih1.trans ?_, ih2.trans ?_⟩
    · unfold GenAlt.applyGenResult
      split
      · rfl
      · next item idx hfind =>
          split
          · exact lookup_cons_ne _ _ hxu
          · split
            · dsimp only
              exact lookup_cons_ne _ _ hxu
            · exact lookup_cons_ne _ _ hxu
    · unfold GenAlt.applyGenResult
      split
      · rfl
      · next item idx hfind =>
          split
          · rfl
          · split
            · dsimp only
              exact lookup_cons_ne _ _ hxb
            · rfl

theorem gat_applies_cache (batch : List GenAlt.BatchItem)
    (indices : List Nat) :
    ∀ (l : List GenAlt.GenResult) (st : GenAlt.PState) (r : GenAlt.GenResult),
      r ∈ l →
      (l.map (fun x => GenAlt.extract_base_filename x.imageUrl)).Nodup →
      (∃ p ∈ batch.zip indices, p.1.imageUrl = r.imageUrl) →
      ((optTruthy r.error = true →
        (l.foldl (GenAlt.applyGenResult batch indices)
          st).processedImages.lookup r.imageUrl = some none ∧
        (l.foldl (GenAlt.applyGenResult batch indices)
          st).processedBase.lookup (GenAlt.extract_base_filename r.imageUrl) =
          st.processedBase.lookup (GenAlt.extract_base_filename r.imageUrl)) ∧
       (optTruthy r.error = false → optTruthy r.altText = true →
        (l.foldl (GenAlt.applyGenResult batch indices)
          st).processedImages.lookup r.imageUrl =
          some (some (r.altText.getD "")) ∧
        (l.foldl (GenAlt.applyGenResult batch indices)
          st).processedBase.lookup (GenAlt.extract_base_filename r.imageUrl) =
          some (some (r.altText.getD "")))) := by
  intro l
  induction l with
  | nil => intro st r hr _ _; exact absurd hr (List.not_mem_nil r)
  | cons x t ih =>
    intro st r hr hnd hex
    rw [List.map_cons, List.nodup_cons] at hnd
    obtain ⟨hndx, hndt⟩ := hnd
    rw [List.foldl_cons]
    rcases List.mem_cons.mp hr with rfl | hrt
    · have hfu : ∀ y ∈ t, y.imageUrl ≠ r.imageUrl := by
        intro y hy heq
        apply hndx
        rw [show GenAlt.extract_base_filename r.imageUrl =
          GenAlt.extract_base_filename y.imageUrl from by rw [heq]]
        exact List.mem_map_of_mem _ hy
      have hfb : ∀ y ∈ t, GenAlt.extract_base_filename y.imageUrl ≠
          GenAlt.extract_base_filename r.imageUrl := by
        intro y hy heq
        apply hndx
        rw [← heq]
        exact List.mem_map_of_mem _ hy
      obtain ⟨hfz1, hfz2⟩ := gat_applies_lookup_frozen batch indices t
        (GenAlt.applyGenResult batch indices st r) r.imageUrl
        (GenAlt.extract_base_filename r.imageUrl) hfu hfb
      obtain ⟨p, hp, hpu⟩ := hex
      have hfindS : ((batch.zip indices).find?
          (fun q => q.1.imageUrl == r.imageUrl)).isSome = true := by
        rw [List.find?_isSome]
        exact ⟨p, hp, by simp [hpu]⟩
      obtain ⟨q0, hq0⟩ := Option.isSome_iff_exists.mp hfindS
      obtain ⟨item, idx⟩ := q0
      constructor
      · intro herr
        refine ⟨hfz1.trans ?_, hfz2.trans ?_⟩
        · unfold GenAlt.applyGenResult
          rw [hq0]
          dsimp only
          rw [if_pos herr]
          simp [List.lookup_cons]
        · unfold GenAlt.applyGenResult
          rw [hq0]
          dsimp only
          rw [if_pos herr]
      · intro herr halt
        refine ⟨hfz1.trans ?_, hfz2.trans ?_⟩
        · unfold GenAlt.applyGenResult
          rw [hq0]
          dsimp only
          rw [if_neg (by simp [herr]), if_pos halt]
          simp [List.lookup_cons]
        · unfold GenAlt.applyGenResult
          rw [hq0]
          dsimp only
          rw [if_neg (by simp [herr]), if_pos halt]
          simp [List.lookup_cons]
    · have hxb : GenAlt.extract_base_filename x.imageUrl ≠
          GenAlt.extract_base_filename r.imageUrl := by
        intro heq
        apply hndx
        rw [heq]
        exact List.mem_map_of_mem _ hrt
      have hxu : x.imageUrl ≠ r.imageUrl := by
        intro heq
        exact hxb (by rw [heq])
      obtain ⟨s1, s2⟩ := gat_applies_lookup_frozen batch indices [x] st
        r.imageUrl (GenAlt.extract_base_filename r.imageUrl)
        (by intro y hy; rw [List.mem_singleton.mp hy]; exact hxu)
        (by intro y hy; rw [List.mem_singleton.mp hy]; exact hxb)
      obtain ⟨ihA, ihB⟩ := ih (GenAlt.applyGenResult batch indices st x) r hrt
        hndt hex
      constructor
      · intro herr
        obtain ⟨a1, a2⟩ := ihA herr
        refine ⟨a1, a2.trans ?_⟩
        exact s2
      · intro herr halt
        exact ihB herr halt

/-- **C3, amended.** For every result of a batch of any size — the
multi-result fan-out of `process_batch` — the exact-URL cache is updated,
with the alt text on success and a failure marker (`None`) on permanent
failure, before the next row is evaluated; a later row whose exact URL is
cached performs no download and no vision call. The base-filename cache,
however, records successes only: after a permanent failure the base filename
of the failed result is exactly as cached before the batch. The hypotheses
mirror the pipeline: the payload's base filenames are pairwise distinct (the
invariant the batch loop maintains), the collaborator returns one result per
submitted image URL, and `batch_indices` tracks `batch` one-to-one. -/
theorem C3_amended_cache_updates :
    (∀ (env : GenAlt.Env) (pd : List (String × PageCtx)) (st : GenAlt.PState)
      (p : Nat × Row),
      (st.processedImages.lookup p.2.dest).isSome = true →
      (GenAlt.processRow env pd st p).genLog = st.genLog ∧
      (GenAlt.processRow env pd st p).downloadLog = st.downloadLog) ∧
    (∀ (env : GenAlt.Env) (batch : List GenAlt.BatchItem)
      (indices : List Nat) (st : GenAlt.PState)
      (rs : List GenAlt.GenResult) (r : GenAlt.GenResult),
      env.gen batch = GenAlt.GenOutcome.results rs →
      r ∈ rs →
      (rs.map (fun x => GenAlt.extract_base_filename x.imageUrl)).Nodup →
      r.imageUrl ∈ batch.map (fun it => it.imageUrl) →
      indices.length = batch.length →
      ((optTruthy r.error = true →
        (GenAlt.process_batch env batch indices st).processedImages.lookup
          r.imageUrl = some none ∧
        (GenAlt.process_batch env batch indices st).processedBase.lookup
          (GenAlt.extract_base_filename r.imageUrl) =
          st.processedBase.lookup
            (GenAlt.extract_base_filename r.imageUrl)) ∧
       (optTruthy r.error = false → optTruthy r.altText = true →
        (GenAlt.process_batch env batch indices st).processedImages.lookup
          r.imageUrl = some (some (r.altText.getD "")) ∧
        (GenAlt.process_batch env batch indices st).processedBase.lookup
          (GenAlt.extract_base_filename r.imageUrl) =
          some (some (r.altText.getD ""))))) := by
  constructor
  · intro env pd st p h
    unfold GenAlt.processRow
    dsimp only
    split
    · exact ⟨rfl, rfl⟩
    · exact ⟨rfl, rfl⟩
    · next heq => rw [heq] at h; simp at h
  · intro env batch indices st rs r hgen hr hnd hurl hlen
    have hex : ∃ p ∈ batch.zip indices, p.1.imageUrl = r.imageUrl := by
      rcases List.mem_map.mp hurl with ⟨it, hit, hitu⟩
      obtain ⟨b, hb⟩ := mem_zip_of_mem_left batch indices it hit hlen
      exact ⟨(it, b), hb, hitu⟩
    unfold GenAlt.process_batch
    rw [hgen]
    exact gat_applies_cache batch indices rs
      { st with genLog := st.genLog ++ [batch] } r hr hnd hex

/-- **C3, witness.** A two-item batch: on a collaborator that fails every
image, the second result's URL is cached as a failure while its base
filename stays uncached; on a collaborator that succeeds on every image,
both the URL and the base filename are cached with the alt text. -/
theorem C3_witness :
    ((GenAlt.process_batch envFailGen demoBatch2 [0, 1]
        (GenAlt.initState demoStoreVariants)).processedImages.lookup
        "https://e.com/c.jpg" = some none ∧
     (GenAlt.process_batch envFailGen demoBatch2 [0, 1]
        (GenAlt.initState demoStoreVariants)).processedBase.lookup
        (GenAlt.extract_base_filename "https://e.com/c.jpg") =
      (GenAlt.initState demoStoreVariants).processedBase.lookup
        (GenAlt.extract_base_filename "https://e.com/c.jpg")) ∧
    ((GenAlt.process_batch envOkGen demoBatch2 [0, 1]
        (GenAlt.initState demoStoreVariants)).processedImages.lookup
        "https://e.com/c.jpg" = some (some "alt of https://e.com/c.jpg") ∧
     (GenAlt.process_batch envOkGen demoBatch2 [0, 1]
        (GenAlt.initState demoStoreVariants)).processedBase.lookup
        (GenAlt.extract_base_filename "https://e.com/c.jpg") =
      some (some "alt of https://e.com/c.jpg")) := by
  constructor
  · exact (C3_amended_cache_updates.2 envFailGen demoBatch2 [0, 1]
      (GenAlt.initState demoStoreVariants)
      (demoBatch2.map (fun it =>
        ({ imageUrl := it.imageUrl, altText := none,
           error := some "boom" } : GenAlt.GenResult)))
      { imageUrl := "https://e.com/c.jpg", altText := none,
        error := some "boom" }
      (by rfl) (by decide) (by decide) (by decide) (by decide)).1 (by decide)
  · exact (C3_amended_cache_updates.2 envOkGen demoBatch2 [0, 1]
      (GenAlt.initState demoStoreVariants)
      (demoBatch2.map (fun it =>
        ({ imageUrl := it.imageUrl,
           altText := some ("alt of " ++ it.imageUrl),
           error := none } : GenAlt.GenResult)))
      { imageUrl := "https://e.com/c.jpg",
        altText := some "alt of https://e.com/c.jpg", error := none }
      (by rfl) (by decide) (by decide) (by decide) (by decide)).2 (by decide)
      (by decide)
